import Mathlib

/-!
Verification of the echogram metadata/provenance correlator
(`mi/dataset/driver/zplsc_c/zplsc_echogram_uploader.py`).

The development is a shallow embedding of `ZplscEchogramUploadParser` and its
helper methods.  Python strings are modelled as `List Char` (Python string
comparison is code-point comparison, which is exactly `Char` comparison on
scalar values), Python `datetime` values as a six-field record of naturals,
Python floats as rationals, and the fallible Python operations
(`re`-matching driven `strptime`, `timedelta` overflow, netCDF attribute
access, dictionary access) as `Option`/`Except` values.  The distinct raise
sites of the two `SampleException`s in `parse_file` are kept apart by the
two constructors `formatError` and `correlationError`.
-/

/-! ## Digit characters

Only the ASCII digits can occur at the digit positions of the file names that
reach `strptime` in this driver (they are pre-filtered by `[0-9]` character
classes), so digits are modelled by explicit enumeration of the ten ASCII
digit characters. -/

def isDigitC (c : Char) : Bool :=
  c = '0' || c = '1' || c = '2' || c = '3' || c = '4' ||
  c = '5' || c = '6' || c = '7' || c = '8' || c = '9'

def digitVal (c : Char) : Nat :=
  if c = '1' then 1 else if c = '2' then 2 else if c = '3' then 3
  else if c = '4' then 4 else if c = '5' then 5 else if c = '6' then 6
  else if c = '7' then 7 else if c = '8' then 8 else if c = '9' then 9 else 0

def digitChar (n : Nat) : Char :=
  if n = 1 then '1' else if n = 2 then '2' else if n = 3 then '3'
  else if n = 4 then '4' else if n = 5 then '5' else if n = 6 then '6'
  else if n = 7 then '7' else if n = 8 then '8' else if n = 9 then '9' else '0'

def allDigits (l : List Char) : Bool := l.all isDigitC

/-- Value of a digit string, as Python `int` (and `strptime`) read it. -/
def digitsToNat : List Char → Nat
  | [] => 0
  | c :: cs => digitVal c * 10 ^ cs.length + digitsToNat cs

/-- Render `n` as a zero-padded digit string of width `w` (Python `%02d`
style formatting as used by `strftime` for the bounded date/time fields). -/
def padDigits : Nat → Nat → List Char
  | 0, _ => []
  | w + 1, n => digitChar (n / 10 ^ w) :: padDigits w (n % 10 ^ w)

/-! ## Lexicographic comparison of strings (Python `str` order, `sorted`) -/

/-- Python string `<=`: code-point lexicographic order. -/
def lexLe : List Char → List Char → Bool
  | [], _ => true
  | _ :: _, [] => false
  | a :: as, b :: bs => if a = b then lexLe as bs else decide (a < b)

/-! ## Small string utilities used by the embedded matchers -/

/-- Strip a literal from the front of `s` (regex literal matching). -/
def stripLit : List Char → List Char → Option (List Char)
  | [], s => some s
  | _ :: _, [] => none
  | p :: ps, c :: cs => if p = c then stripLit ps cs else none

/-- Consume exactly `n` digits from the front (regex `[0-9]{n}`). -/
def takeDigitsN (n : Nat) (s : List Char) : Option (List Char × List Char) :=
  if (s.take n).length = n ∧ allDigits (s.take n) then
    some (s.take n, s.drop n)
  else none

/-- Match `pat` (a compiled literal-plus-dot pattern, the way the driver uses
an hourly *filename* as a regex) against the front of `s`: every character of
`pat` is literal except `.`, which matches any character (`re.match`
semantics, anchored at the start only). -/
def patChars : List Char → List Char → Bool
  | [], _ => true
  | _ :: _, [] => false
  | p :: ps, c :: cs => (p = '.' || p = c) && patChars ps cs

/-! ## Python `datetime` model -/

structure PyDateTime where
  year : Nat
  month : Nat
  day : Nat
  hour : Nat
  minute : Nat
  second : Nat
  deriving DecidableEq, Repr

def dtList (t : PyDateTime) : List Nat :=
  [t.year, t.month, t.day, t.hour, t.minute, t.second]

def natListLt : List Nat → List Nat → Bool
  | [], [] => false
  | [], _ :: _ => true
  | _ :: _, [] => false
  | a :: as, b :: bs => decide (a < b) || (a = b && natListLt as bs)

/-- Python `datetime` `<`: field-lexicographic comparison. -/
def dtLt (a b : PyDateTime) : Bool := natListLt (dtList a) (dtList b)

/-- Python `datetime` `<=`. -/
def dtLe (a b : PyDateTime) : Bool := dtLt a b || decide (a = b)

/-- Packed numeric key `YYYYMMDDHHMMSS` of a datetime. -/
def dtKey (t : PyDateTime) : Nat :=
  ((((t.year * 100 + t.month) * 100 + t.day) * 100 + t.hour) * 100 +
    t.minute) * 100 + t.second

def isLeapYear (y : Nat) : Bool :=
  y % 4 = 0 && (y % 100 ≠ 0 || y % 400 = 0)

def daysInMonth (y m : Nat) : Nat :=
  if m = 2 then (if isLeapYear y then 29 else 28)
  else if m = 4 ∨ m = 6 ∨ m = 9 ∨ m = 11 then 30
  else 31

/-! ## Python exceptions raised by the embedded code

Both `formatError` and `correlationError` are `SampleException`s in the
source; they are the two distinct `raise` sites of `parse_file`. -/

inductive PyErr where
  | formatError (msg : List Char)
  | correlationError (msg : List Char)
  | valueError (data : List Char)
  | typeError (msg : List Char)
  | overflowError (msg : List Char)
  | attributeError (msg : List Char)
  | keyError (msg : List Char)
  | ioError (msg : List Char)
  deriving DecidableEq, Repr

/-- Python `t + timedelta(days=1)`; `OverflowError` past `datetime.max`
(year 9999), Gregorian calendar otherwise. -/
def addOneDay (t : PyDateTime) : Except PyErr PyDateTime :=
  if t.day < daysInMonth t.year t.month then .ok { t with day := t.day + 1 }
  else if t.month < 12 then .ok { t with month := t.month + 1, day := 1 }
  else if t.year < 9999 then .ok { t with year := t.year + 1, month := 1, day := 1 }
  else .error (.overflowError ("date value out of range").data)

/-- Python `t - timedelta(days=1)`; `OverflowError` below `datetime.min`
(year 1). -/
def subOneDay (t : PyDateTime) : Except PyErr PyDateTime :=
  if 1 < t.day then .ok { t with day := t.day - 1 }
  else if 1 < t.month then .ok { t with month := t.month - 1, day := daysInMonth t.year (t.month - 1) }
  else if 1 < t.year then .ok { t with year := t.year - 1, month := 12, day := 31 }
  else .error (.overflowError ("date value out of range").data)

/-- `datetime.strptime(ds, "%Y%m%d")` on an 8-character capture of
`[0-9]{8}` (the only inputs it receives in this driver).  The `strptime`
regex splits eight digits greedily as 4+2+2; the resulting fields must be a
valid Gregorian date with year at least 1, otherwise `ValueError`. -/
def parseDate8 (ds : List Char) : Option PyDateTime :=
  match ds with
  | [a, b, c, d, e, f, g, h] =>
    if allDigits [a, b, c, d, e, f, g, h] then
      if 1 ≤ digitsToNat [a, b, c, d] ∧ 1 ≤ digitsToNat [e, f] ∧
          digitsToNat [e, f] ≤ 12 ∧ 1 ≤ digitsToNat [g, h] ∧
          digitsToNat [g, h] ≤ daysInMonth (digitsToNat [a, b, c, d]) (digitsToNat [e, f]) then
        some ⟨digitsToNat [a, b, c, d], digitsToNat [e, f], digitsToNat [g, h], 0, 0, 0⟩
      else none
    else none
  | _ => none

/-- `datetime.strptime(s, 'OOI-D%Y%m%d-T%H%M%S.nc')`.  `strptime` requires
the whole string to be consumed (trailing characters raise `ValueError`), so
this succeeds exactly on strings of the literal 24-character hourly shape
whose embedded fields form a valid datetime (the six time digits split
2+2+2 with bounded values, like the date's 4+2+2 split). -/
def parseHourlyFilename (s : List Char) : Option PyDateTime :=
  (stripLit (("OOI-D").data) s).bind fun s1 =>
  (takeDigitsN 8 s1).bind fun pr8 =>
  (stripLit (("-T").data) pr8.2).bind fun s3 =>
  (takeDigitsN 6 s3).bind fun pr6 =>
  if pr6.2 = (".nc").data then
    (parseDate8 pr8.1).bind fun d =>
    if digitsToNat (pr6.1.take 2) ≤ 23 ∧ digitsToNat ((pr6.1.drop 2).take 2) ≤ 59 ∧
        digitsToNat (pr6.1.drop 4) ≤ 59 then
      some ⟨d.year, d.month, d.day, digitsToNat (pr6.1.take 2),
            digitsToNat ((pr6.1.drop 2).take 2), digitsToNat (pr6.1.drop 4)⟩
    else none
  else none

/-- Plain decimal rendering of a natural number (glibc `%Y`, which does not
zero-pad the year). -/
def natDigits (n : Nat) : List Char :=
  if _ : n < 10 then [digitChar n]
  else natDigits (n / 10) ++ [digitChar (n % 10)]
  decreasing_by exact Nat.div_lt_self (by omega) (by omega)

/-- `t.strftime('OOI-D%Y%m%d-T%H%M%S.nc')` (`HOURLY_FILENAME_DATE_FORMAT`);
all fields except the year are zero-padded to width 2. -/
def fmtHourly (t : PyDateTime) : List Char :=
  ("OOI-D").data ++ natDigits t.year ++ padDigits 2 t.month ++
    padDigits 2 t.day ++ ("-T").data ++ padDigits 2 t.hour ++
    padDigits 2 t.minute ++ padDigits 2 t.second ++ (".nc").data

/-! ## `os.path` model (posixpath) -/

/-- Index of the last occurrence of `c` in `s`, if any. -/
def lastIdx (s : List Char) (c : Char) : Option Nat :=
  match s with
  | [] => none
  | a :: rest =>
    match lastIdx rest c with
    | some i => some (i + 1)
    | none => if a = c then some 0 else none

/-- Python `s.rfind(c)`: last index or `-1`. -/
def pyRfind (s : List Char) (c : Char) : Int :=
  match lastIdx s c with
  | some j => (j : Int)
  | none => -1

/-- Python slice `s[:i]` for an `int` index (negative counts from the end). -/
def pySliceTo (s : List Char) (i : Int) : List Char :=
  if i < 0 then s.take (s.length - (-i).toNat) else s.take i.toNat

/-- `os.path.split`: split at the final slash, then strip trailing slashes
from the head unless the head is all slashes. -/
def pySplit (p : List Char) : List Char × List Char :=
  let i : Nat := match lastIdx p '/' with
    | some j => j + 1
    | none => 0
  let head := p.take i
  let tail := p.drop i
  if head ≠ [] ∧ head.any (fun c => c ≠ '/') then
    ((head.reverse.dropWhile (fun c => c = '/')).reverse, tail)
  else (head, tail)

/-- `os.path.splitext`: split at the final dot of the basename, unless all
the characters of the basename before that dot are themselves dots. -/
def pySplitext (p : List Char) : List Char × List Char :=
  let sepIdx : Int := pyRfind p '/'
  let dotIdx : Int := pyRfind p '.'
  if sepIdx < dotIdx ∧
      ((p.drop (sepIdx + 1).toNat).take (dotIdx - sepIdx - 1).toNat).any
        (fun c => c ≠ '.') then
    (p.take dotIdx.toNat, p.drop dotIdx.toNat)
  else (p, [])

/-- `os.path.join` for two components (posix). -/
def pyJoin (a b : List Char) : List Char :=
  if b.take 1 = [ '/' ] then b
  else if a = [] ∨ a.getLast? = some '/' then a ++ b
  else a ++ '/' :: b

/-! ## The two filename grammars of `parse_file`

`averaged_or_full_filename_regex_str` is applied with `re.search` (leftmost
substring match); `hourly_filename_regex_str` with `re.match` (anchored at
the start only).  The literal regex texts below are interpolated into the
`FormatError` message exactly as in the source. -/

def rangeRegexText : List Char :=
  ("Bioacoustic_Echogram_(?P<start_date>[0-9]{8})-(?P<stop_date>[0-9]{8})_Calibrated_Sv_(?P<type>Averaged|Full)_?(?P<date>[0-9]{8})?\\.nc").data

def hourlyRegexText : List Char :=
  ("OOI-D[0-9]{8}-T[0-9]{6}\\.nc").data

def avgText : List Char := ("Averaged").data

def fullText : List Char := ("Full").data

def hourlyText : List Char := ("Hourly").data

/-- Captures of the range grammar. -/
structure RangeCaps where
  start_date : List Char
  stop_date : List Char
  etype : List Char
  date : Option (List Char)
  deriving DecidableEq, Repr

/-- Tail of the range regex, `_?(?P<date>[0-9]{8})?\.nc`, starting with the
empty-underscore alternative.  Backtracking tries the greedy date capture
first, then the empty capture. -/
def rangeTailBare (sd ed ty : List Char) (s : List Char) : Option RangeCaps :=
  match takeDigitsN 8 s with
  | some (d, s2) =>
    if s2.take 3 = (".nc").data then some ⟨sd, ed, ty, some d⟩
    else if s.take 3 = (".nc").data then some ⟨sd, ed, ty, none⟩
    else none
  | none => if s.take 3 = (".nc").data then some ⟨sd, ed, ty, none⟩ else none

/-- Tail of the range regex, `_?(?P<date>[0-9]{8})?\.nc`, with Python's
backtracking preference order: greedy `_`, then greedy date capture. -/
def rangeTail (sd ed ty : List Char) (s : List Char) : Option RangeCaps :=
  match s with
  | '_' :: s1 =>
    (match takeDigitsN 8 s1 with
     | some (d, s2) =>
       if s2.take 3 = (".nc").data then some ⟨sd, ed, ty, some d⟩
       else if s1.take 3 = (".nc").data then some ⟨sd, ed, ty, none⟩
       else rangeTailBare sd ed ty s
     | none =>
       if s1.take 3 = (".nc").data then some ⟨sd, ed, ty, none⟩
       else rangeTailBare sd ed ty s)
  | _ => rangeTailBare sd ed ty s

/-- Attempt the range regex at the current position. The two alternatives of
`(?P<type>Averaged|Full)` are mutually exclusive (no shared first
character), so no backtracking across the alternation is needed. -/
def rangeMatchAt (s : List Char) : Option RangeCaps :=
  match stripLit (("Bioacoustic_Echogram_").data) s with
  | none => none
  | some s1 =>
    match takeDigitsN 8 s1 with
    | none => none
    | some (sd, s2) =>
      match s2 with
      | '-' :: s3 =>
        (match takeDigitsN 8 s3 with
         | none => none
         | some (ed, s4) =>
           match stripLit (("_Calibrated_Sv_").data) s4 with
           | none => none
           | some s5 =>
             match stripLit (("Averaged").data) s5 with
             | some s6 => rangeTail sd ed avgText s6
             | none =>
               match stripLit (("Full").data) s5 with
               | some s6 => rangeTail sd ed fullText s6
               | none => none)
      | _ => none

/-- `re.search` of the range regex: leftmost position at which the pattern
matches, with that position's backtracking-first captures. -/
def rangeSearch : List Char → Option RangeCaps
  | [] => rangeMatchAt []
  | c :: rest =>
    match rangeMatchAt (c :: rest) with
    | some r => some r
    | none => rangeSearch rest

/-- `re.match` of `OOI-D[0-9]{8}-T[0-9]{6}\.nc` (or of
`'OOI-D' + date + r'-T[0-9]{6}\.nc'` when the date check is done
separately): the pattern must match a prefix of `f`. -/
def hourlyRegexMatch (f : List Char) : Bool :=
  f.take 5 = ("OOI-D").data ∧ allDigits ((f.drop 5).take 8) ∧
  (f.drop 13).take 2 = ("-T").data ∧ allDigits ((f.drop 15).take 6) ∧
  (f.drop 21).take 3 = (".nc").data

/-- A string is exactly of the 24-character hourly shape. -/
def hourlyExactForm (f : List Char) : Bool :=
  hourlyRegexMatch f && f.length = 24

/-- The hourly-file pattern computed by `parse_file` for the directory scan:
for `Full` it is `'OOI-D' + m.group('date') + r'-T[0-9]{6}\.nc'`, for
`Averaged` the generic `r'OOI-D[0-9]{8}-T[0-9]{6}\.nc'`, and for `Hourly`
the echogram filename itself used as a regex. -/
inductive HourlyPat where
  | fullDay (d8 : List Char)
  | anyDay
  | selfName (s : List Char)
  deriving DecidableEq, Repr

/-- `re.match(hourly_file_regex, f)` for each of the three shapes the
pattern can take.  An hourly filename used as a regex (`selfName`) consists
of literal characters plus `.`, which is the regex any-character. -/
def HourlyPat.matches : HourlyPat → List Char → Bool
  | .fullDay d8, f => hourlyRegexMatch f && (f.drop 5).take 8 = d8
  | .anyDay, f => hourlyRegexMatch f
  | .selfName s, f => patChars s f

/-- The regex source text of a pattern, as interpolated into the
`CorrelationError` message. -/
def HourlyPat.render : HourlyPat → List Char
  | .fullDay d8 => ("OOI-D").data ++ d8 ++ ("-T[0-9]{6}\\.nc").data
  | .anyDay => hourlyRegexText
  | .selfName s => s

/-! ## Error messages (the `%`-interpolations of the two `SampleException`
raise sites, literal text included) -/

def formatErrorMsg (fname : List Char) : List Char :=
  ("Filename \"").data ++ fname ++
  ("\" not in either of the expected formats: \"").data ++ rangeRegexText ++
  ("\" or \"").data ++ hourlyRegexText ++ ("\"").data

def correlationErrorMsg (startDt stopDt : PyDateTime)
    (etype fname patText : List Char) : List Char :=
  ("Hourly files from ").data ++ fmtHourly startDt ++ (" to ").data ++
  fmtHourly stopDt ++ (" corresponding to \"").data ++ etype ++
  ("\" echogram \"").data ++ fname ++
  ("\" could not be found that match regex \"").data ++ patText ++ ("\"").data

/-- The `TypeError` text of `'OOI-D' + None` (line 208 of the source runs
before the `strptime` on the next line can). -/
def concatNoneMsg : List Char :=
  ("can only concatenate str (not \"NoneType\") to str").data

/-- The `TypeError` text that `datetime.strptime(None, "%Y%m%d")` would
produce, had execution reached line 209; kept for comparison. -/
def strptimeNoneMsg : List Char :=
  ("strptime() argument 1 must be str, not None").data

/-! ## Data model: provenance, netCDF collaborator, environment, output -/

/-- The `self.provenance` dictionary (`ZplscProvenanceKey` entries; a missing
key is `none`). -/
structure Provenance where
  data_file_name : Option (List Char)
  conversion_software_name : Option (List Char)
  conversion_software_version : Option (List Char)
  conversion_time : Option (List Char)
  deriving DecidableEq, Repr

/-- What the `netCDF4.Dataset` collaborator can yield for one file: the four
`Provenance` group attributes, `groups['Beam'].variables['ping_time'][0]`,
and the top-level `variables['ping_time'][0]`.  A `none` field means the
access raises. -/
structure NcFile where
  srcFilenames : Option (List Char)
  conversionSoftwareName : Option (List Char)
  conversionSoftwareVersion : Option (List Char)
  conversionTime : Option (List Char)
  beamPingTime0 : Option ℚ
  topPingTime0 : Option ℚ

/-- The file-system and external-collaborator environment of one
invocation: the echogram path handed to the parser, `os.listdir` of its
directory, `netCDF4.Dataset` opening, and the two external time conversions
(`time_to_ntp_date_time`, `string_to_ntp_date_time`, whose sources are
outside this repository). -/
structure Env where
  echogramFilepath : List Char
  listing : List (List Char)
  openFile : List Char → Option NcFile
  timeToNtp : ℚ → ℚ
  stringToNtp : List Char → ℚ

/-- Events on file handles, to state the open/close discipline. -/
inductive FileEvent where
  | opened (path : List Char)
  | closed (path : List Char)
  deriving DecidableEq, Repr

/-- The assembled `zplsc_metadata` particle: `internal_timestamp`, the
`zplsc_timestamp` (FILE_TIME) and `filepath` (ECHOGRAM_PATH) values, and the
overwritten `driver_timestamp`. -/
structure MetadataRecord where
  internalTimestamp : ℚ
  zplsc_timestamp : ℚ
  filepath : List Char
  driverTimestamp : ℚ
  deriving DecidableEq, Repr

instance : Inhabited MetadataRecord := ⟨⟨0, 0, [], 0⟩⟩

/-! ## The embedded driver methods -/

/-- Lines 180-220 of `parse_file`: classify the echogram filename and build
the hourly-file regex and the search window.  The returned tuple is
`(echogram_type, hourly_file_regex, start_day_datetime, stop_day_datetime)`.
In the source `echogram_type` is the matched `type` capture (a string) or
the enum value `"Hourly"`, compared by string equality. -/
def resolveWindow (fname : List Char) :
    Except PyErr (List Char × HourlyPat × PyDateTime × PyDateTime) :=
  match rangeSearch fname with
  | some caps =>
    if caps.etype = fullText then
      -- hourly_file_regex = 'OOI-D' + m.group('date') + r'-T[0-9]{6}\.nc'
      -- (TypeError on the concatenation when the optional capture is None,
      -- before the strptime of the next source line runs)
      match caps.date with
      | none => .error (.typeError concatNoneMsg)
      | some d8 =>
        match parseDate8 d8 with
        | none => .error (.valueError d8)
        | some startDt =>
          match addOneDay startDt with
          | .error e => .error e
          | .ok stopDt => .ok (fullText, .fullDay d8, startDt, stopDt)
    else
      -- the alternation admits only Averaged and Full, so this is Averaged
      match parseDate8 caps.start_date with
      | none => .error (.valueError caps.start_date)
      | some startDt =>
        match parseDate8 caps.stop_date with
        | none => .error (.valueError caps.stop_date)
        | some stopDt => .ok (caps.etype, .anyDay, startDt, stopDt)
  | none =>
    if hourlyRegexMatch fname then
      match parseHourlyFilename fname with
      | none => .error (.valueError fname)
      | some t => .ok (hourlyText, .selfName fname, t, t)
    else .error (.formatError (formatErrorMsg fname))

/-- The list comprehension of lines 224-228: keep the listing entries that
`re.match` the hourly-file regex and (short-circuit `or`: except for the
Hourly type) whose `strptime`-parsed timestamp lies in
`[start_day_datetime, stop_day_datetime)`.  A pattern-matching entry that
`strptime` cannot fully parse raises `ValueError` out of the
comprehension. -/
def filterHourly (etype : List Char) (pat : HourlyPat)
    (startDt stopDt : PyDateTime) :
    List (List Char) → Except PyErr (List (List Char))
  | [] => .ok []
  | f :: rest =>
    if pat.matches f then
      if etype = hourlyText then
        match filterHourly etype pat startDt stopDt rest with
        | .error e => .error e
        | .ok l => .ok (f :: l)
      else
        match parseHourlyFilename f with
        | none => .error (.valueError f)
        | some t =>
          if dtLe startDt t ∧ dtLt t stopDt then
            match filterHourly etype pat startDt stopDt rest with
            | .error e => .error e
            | .ok l => .ok (f :: l)
          else filterHourly etype pat startDt stopDt rest
    else filterHourly etype pat startDt stopDt rest

/-- Python `sorted` on a list of strings: a stable sort under the total
code-point order, here insertion sort (any stable sort yields the same
list). -/
def pySorted (l : List (List Char)) : List (List Char) :=
  List.insertionSort (fun a b => lexLe a b = true) l

/-- `set_provenance_from_hourly_file` (lines 268-274): open the hourly file,
read the four `Provenance` attributes, close.  There is no try/finally in
the source, so a failing read leaves the file open; the event trace records
what happened to the handle. -/
def set_provenance_from_hourly_file (env : Env) (path : List Char) :
    Except PyErr Provenance × List FileEvent :=
  match env.openFile path with
  | none => (.error (.ioError path), [])
  | some nc =>
    match nc.srcFilenames with
    | none => (.error (.attributeError (("src_filenames").data)), [.opened path])
    | some dfn =>
      match nc.conversionSoftwareName with
      | none => (.error (.attributeError (("conversion_software_name").data)), [.opened path])
      | some sw =>
        match nc.conversionSoftwareVersion with
        | none => (.error (.attributeError (("conversion_software_version").data)), [.opened path])
        | some ver =>
          match nc.conversionTime with
          | none => (.error (.attributeError (("conversion_time").data)), [.opened path])
          | some ct =>
            (.ok ⟨some dfn, some sw, some ver, some ct⟩,
             [.opened path, .closed path])

/-- `get_first_ping_time_from_echogram` (lines 314-321): open the echogram,
read the first ping time (`groups['Beam']` for Hourly, top-level plus
`time_to_ntp_date_time` conversion otherwise), close.  No try/finally
either. -/
def get_first_ping_time_from_echogram (env : Env) (etype : List Char) :
    Except PyErr ℚ × List FileEvent :=
  match env.openFile env.echogramFilepath with
  | none => (.error (.ioError env.echogramFilepath), [])
  | some nc =>
    if etype = hourlyText then
      match nc.beamPingTime0 with
      | none => (.error (.attributeError (("Beam/ping_time").data)),
                 [.opened env.echogramFilepath])
      | some v => (.ok v, [.opened env.echogramFilepath, .closed env.echogramFilepath])
    else
      match nc.topPingTime0 with
      | none => (.error (.attributeError (("ping_time").data)),
                 [.opened env.echogramFilepath])
      | some v => (.ok (env.timeToNtp v),
                   [.opened env.echogramFilepath, .closed env.echogramFilepath])

/-- `modify_provenance_for_echogram_type` (lines 276-312).  The Hourly /
missing / empty source-file-name cases return before anything else runs; the
Averaged branch first subtracts a day from `last_datetime` (which can
raise `OverflowError`), then rewrites `data_file_name`. -/
def modify_provenance_for_echogram_type (etype : List Char)
    (first last : PyDateTime) (prov : Provenance) : Except PyErr Provenance :=
  match prov.data_file_name with
  | none => .ok prov
  | some dfn =>
    if etype = hourlyText ∨ dfn = [] then .ok prov
    else
      let daily := (pySplit dfn).1
      let dataFilename := (pySplit dfn).2
      let stem := (pySplitext dataFilename).1
      let ext := (pySplitext dataFilename).2
      if etype = fullText then
        let v := pySliceTo dfn (pyRfind dfn 'T') ++ ('T' :: '*' :: []) ++ ext
        .ok { prov with data_file_name := some v }
      else
        match subOneDay last with
        | .error e => .error e
        | .ok last2 =>
          let base := pySliceTo stem (pyRfind stem 'D') ++ ("D*-T*").data ++ ext
          let yearly := (pySplit ((pySplit daily).1)).1
          let p1 := pyJoin (pyJoin (pyJoin yearly (padDigits 2 first.month))
                      (padDigits 2 first.day)) base
          if dtLt first last2 then
            let p2 := pyJoin (pyJoin (pyJoin yearly (padDigits 2 last2.month))
              (padDigits 2 last2.day)) base
            .ok { prov with data_file_name := some (p1 ++ (" ... ").data ++ p2) }
          else .ok { prov with data_file_name := some p1 }

/-- `parse_file` (lines 178-266), with an event trace of the file handles it
opened and closed.  A raised exception is an `error` result; the record
buffer receives exactly one particle on success.  (`_extract_sample` cannot
produce encoding errors for these well-typed fields, so the particle is
always appended on success, and `DRIVER_TIMESTAMP` is overwritten from the
provenance conversion time via `string_to_ntp_date_time`.) -/
def parse_file (env : Env) :
    Except PyErr (List MetadataRecord) × List FileEvent :=
  match resolveWindow (pySplit env.echogramFilepath).2 with
  | .error e => (.error e, [])
  | .ok (etype, pat, startDt, stopDt) =>
    match filterHourly etype pat startDt stopDt env.listing with
    | .error e => (.error e, [])
    | .ok [] =>
      (.error (.correlationError (correlationErrorMsg startDt stopDt etype
        (pySplit env.echogramFilepath).2 pat.render)), [])
    | .ok (f :: fs) =>
      match set_provenance_from_hourly_file env
          (pyJoin (pySplit env.echogramFilepath).1 (pySorted (f :: fs)).headI) with
      | (.error e, tr) => (.error e, tr)
      | (.ok prov, tr1) =>
        match modify_provenance_for_echogram_type etype startDt stopDt prov with
        | .error e => (.error e, tr1)
        | .ok prov2 =>
          match get_first_ping_time_from_echogram env etype with
          | (.error e, tr2) => (.error e, tr1 ++ tr2)
          | (.ok fpt, tr2) =>
            match prov2.conversion_time with
            | none => (.error (.keyError (("conversion_time").data)), tr1 ++ tr2)
            | some ct =>
              (.ok [{ internalTimestamp :=
                        fpt + (if etype = fullText then (1 : ℚ) / 1000 else 0),
                      zplsc_timestamp := fpt,
                      filepath := env.echogramFilepath,
                      driverTimestamp := env.stringToNtp ct }],
               tr1 ++ tr2)

deriving instance DecidableEq for Except

/-- Repeated invocation of the provenance transformer (sequenced through the
possible `OverflowError`). -/
def iterateModify (etype : List Char) (first last : PyDateTime) :
    Nat → Provenance → Except PyErr Provenance
  | 0, p => .ok p
  | n + 1, p =>
    match modify_provenance_for_echogram_type etype first last p with
    | .error e => .error e
    | .ok p2 => iterateModify etype first last n p2

/-- Environment whose echogram filename matches the hourly grammar only as
a prefix (trailing junk `X`). -/
def envC1x : Env :=
  { echogramFilepath := ("d/OOI-D20191020-T013835.ncX").data,
    listing := [],
    openFile := fun _ => none,
    timeToNtp := fun q => q,
    stringToNtp := fun _ => 0 }

/-- Environment with an unrecognized echogram filename. -/
def envC1w : Env :=
  { echogramFilepath := ("d/random_file.nc").data,
    listing := [],
    openFile := fun _ => none,
    timeToNtp := fun q => q,
    stringToNtp := fun _ => 0 }

/-- Environment whose echogram filename is of the range form with
`type=Full` but without the optional trailing date. -/
def envC10 : Env :=
  { echogramFilepath :=
      ("d/Bioacoustic_Echogram_20191020-20191027_Calibrated_Sv_Full.nc").data,
    listing := [],
    openFile := fun _ => none,
    timeToNtp := fun q => q,
    stringToNtp := fun _ => 0 }

/-- A provenance record with a populated source-file reference. -/
def provC7w : Provenance :=
  ⟨some (("/data/testing/zplsc/ce04osps/2017/09/10/OOI-D20170910-T013835.raw").data),
   some (("echopype").data), some (("1.0").data),
   some (("2019-10-20T12:00:00Z").data)⟩

/-- The path built per boundary day by the spec's words for the Averaged
rewrite: root at the raw-file directory's year level and use
`<year>/<month>/<day>/<stem-up-to-D>D*-T*<ext>`. -/
def specAvgPath (dfn : List Char) (d : PyDateTime) : List Char :=
  pyJoin (pyJoin (pyJoin (pySplit ((pySplit ((pySplit dfn).1)).1)).1
    (padDigits 2 d.month)) (padDigits 2 d.day))
    (pySliceTo (pySplitext ((pySplit dfn).2)).1
      (pyRfind (pySplitext ((pySplit dfn).2)).1 'D') ++ ("D*-T*").data ++
      (pySplitext ((pySplit dfn).2)).2)

/-- A netCDF file whose `Provenance` group lacks `src_filenames`. -/
def ncNoSrc : NcFile := ⟨none, none, none, none, none, none⟩

/-- Environment whose opened files lack the provenance attributes. -/
def envC9x : Env :=
  { echogramFilepath := ("d/OOI-D20191020-T013835.nc").data,
    listing := [("OOI-D20191020-T013835.nc").data],
    openFile := fun _ => some ncNoSrc,
    timeToNtp := fun q => q,
    stringToNtp := fun _ => 0 }

/-- A fully populated netCDF file. -/
def ncAll : NcFile :=
  ⟨some (("/data/testing/zplsc/ce04osps/2017/09/10/OOI-D20170910-T013835.raw").data),
   some (("echopype").data), some (("1.0").data),
   some (("2019-10-20T12:00:00Z").data), some 100, some 200⟩

/-- Environment for a fully successful Hourly run. -/
def envOk : Env :=
  { echogramFilepath := ("d/OOI-D20191020-T013835.nc").data,
    listing := [("OOI-D20191020-T013835.nc").data],
    openFile := fun _ => some ncAll,
    timeToNtp := fun q => q,
    stringToNtp := fun _ => 7 }

/-- Environment for an Averaged echogram whose directory holds one entry
that matches the hourly regex only as a prefix (`strptime` then fails). -/
def envC3x : Env :=
  { echogramFilepath :=
      ("d/CE_Bioacoustic_Echogram_20191020-20191027_Calibrated_Sv_Averaged.nc").data,
    listing := [("OOI-D19190101-T000000.ncjunk").data],
    openFile := fun _ => none,
    timeToNtp := fun q => q,
    stringToNtp := fun _ => 0 }

/-- Environment for an Averaged echogram whose directory holds one valid
hourly file lying outside the half-open search window. -/
def envC3w : Env :=
  { echogramFilepath :=
      ("d/CE_Bioacoustic_Echogram_20191020-20191027_Calibrated_Sv_Averaged.nc").data,
    listing := [("OOI-D20191027-T000000.nc").data],
    openFile := fun _ => none,
    timeToNtp := fun q => q,
    stringToNtp := fun _ => 0 }

/-! ## Digit-character lemmas -/

theorem digit_cases {c : Char} (h : isDigitC c = true) :
    c = '0' ∨ c = '1' ∨ c = '2' ∨ c = '3' ∨ c = '4' ∨ c = '5' ∨ c = '6' ∨
    c = '7' ∨ c = '8' ∨ c = '9' := by
  have h' := h
  simp [isDigitC] at h'
  tauto

theorem digitVal_lt_ten (c : Char) : digitVal c < 10 := by
  unfold digitVal
  split_ifs <;> omega

theorem digit_val_inj {a b : Char} (ha : isDigitC a = true)
    (hb : isDigitC b = true) (h : digitVal a = digitVal b) : a = b := by
  rcases digit_cases ha with rfl|rfl|rfl|rfl|rfl|rfl|rfl|rfl|rfl|rfl <;>
    rcases digit_cases hb with rfl|rfl|rfl|rfl|rfl|rfl|rfl|rfl|rfl|rfl <;>
      first | rfl | (exfalso; revert h; decide)

theorem digit_lt_iff {a b : Char} (ha : isDigitC a = true)
    (hb : isDigitC b = true) : a < b ↔ digitVal a < digitVal b := by
  rcases digit_cases ha with rfl|rfl|rfl|rfl|rfl|rfl|rfl|rfl|rfl|rfl <;>
    rcases digit_cases hb with rfl|rfl|rfl|rfl|rfl|rfl|rfl|rfl|rfl|rfl <;>
      decide

theorem digitsToNat_lt {l : List Char} (h : allDigits l = true) :
    digitsToNat l < 10 ^ l.length := by
  induction l with
  | nil => simp [digitsToNat]
  | cons c cs ih =>
    rw [allDigits, List.all_cons, Bool.and_eq_true] at h
    have h2 : digitsToNat cs < 10 ^ cs.length := ih h.2
    have h1 : digitVal c < 10 := digitVal_lt_ten c
    calc digitsToNat (c :: cs) = digitVal c * 10 ^ cs.length + digitsToNat cs := rfl
      _ < digitVal c * 10 ^ cs.length + 10 ^ cs.length := by omega
      _ = (digitVal c + 1) * 10 ^ cs.length := by ring
      _ ≤ 10 * 10 ^ cs.length := Nat.mul_le_mul_right _ (by omega)
      _ = 10 ^ (c :: cs).length := by rw [List.length_cons]; ring

theorem digitsToNat_append (a b : List Char) :
    digitsToNat (a ++ b) = digitsToNat a * 10 ^ b.length + digitsToNat b := by
  induction a with
  | nil => simp [digitsToNat]
  | cons c cs ih =>
    show digitVal c * 10 ^ (cs ++ b).length + digitsToNat (cs ++ b) = _
    rw [ih, List.length_append, pow_add]
    simp only [digitsToNat]
    ring

/-- A digit block with a smaller leading value is numerically smaller, no
matter what follows it. -/
theorem digit_block_lt {vc vd x y k : Nat} (hx : x < k) (h : vc < vd) :
    vc * k + x < vd * k + y :=
  calc vc * k + x < vc * k + k := by omega
    _ = (vc + 1) * k := by ring
    _ ≤ vd * k := Nat.mul_le_mul_right _ (by omega)
    _ ≤ vd * k + y := Nat.le_add_right _ _

theorem digitsToNat_inj : ∀ {a b : List Char}, a.length = b.length →
    allDigits a = true → allDigits b = true →
    digitsToNat a = digitsToNat b → a = b
  | [], [], _, _, _, _ => rfl
  | c :: cs, d :: ds, hlen, ha, hb, hval => by
    rw [allDigits, List.all_cons, Bool.and_eq_true] at ha hb
    have hlen' : cs.length = ds.length := by simpa using hlen
    have hcs := digitsToNat_lt (l := cs) ha.2
    have hds := digitsToNat_lt (l := ds) hb.2
    simp only [digitsToNat] at hval
    rw [hlen'] at hval hcs
    have hvd : digitVal c = digitVal d := by
      rcases Nat.lt_trichotomy (digitVal c) (digitVal d) with h|h|h
      · exact absurd hval (Nat.ne_of_lt (digit_block_lt hcs h))
      · exact h
      · exact absurd hval.symm (Nat.ne_of_lt (digit_block_lt hds h))
    have : digitsToNat cs = digitsToNat ds := by
      rw [hvd] at hval; omega
    rw [digit_val_inj ha.1 hb.1 hvd,
      digitsToNat_inj hlen' ha.2 hb.2 this]

/-! ## Lexicographic-order lemmas -/

theorem lexLe_refl (a : List Char) : lexLe a a = true := by
  induction a with
  | nil => rfl
  | cons c cs ih => simp [lexLe, ih]

theorem lexLe_trans {a b c : List Char} (h1 : lexLe a b = true)
    (h2 : lexLe b c = true) : lexLe a c = true := by
  induction a generalizing b c with
  | nil => simp [lexLe]
  | cons x xs ih =>
    cases b with
    | nil => simp [lexLe] at h1
    | cons y ys =>
      cases c with
      | nil => simp [lexLe] at h2
      | cons z zs =>
        simp only [lexLe] at h1 h2 ⊢
        by_cases hxy : x = y
        · subst hxy
          by_cases hyz : x = z
          · subst hyz
            simp only [if_pos rfl] at h1 h2 ⊢
            exact ih h1 h2
          · simpa [hyz] using h2
        · by_cases hyz : y = z
          · subst hyz; simpa [hxy] using h1
          · simp only [if_neg hxy, if_neg hyz, decide_eq_true_eq] at h1 h2
            by_cases hxz : x = z
            · exact absurd (lt_trans h1 h2) (by rw [hxz]; exact lt_irrefl z)
            · simp [hxz, lt_trans h1 h2]

theorem lexLe_total (a b : List Char) :
    lexLe a b = true ∨ lexLe b a = true := by
  induction a generalizing b with
  | nil => left; rfl
  | cons x xs ih =>
    cases b with
    | nil => right; rfl
    | cons y ys =>
      by_cases hxy : x = y
      · subst hxy
        simpa [lexLe] using ih ys
      · rcases lt_or_gt_of_ne hxy with h|h
        · left; simp [lexLe, hxy, h]
        · right; simp [lexLe, Ne.symm hxy, h]

theorem lexLe_append_left (p a b : List Char) :
    lexLe (p ++ a) (p ++ b) = lexLe a b := by
  induction p with
  | nil => rfl
  | cons c cs ih => simp [lexLe, ih]

/-- Comparing two equal-length digit blocks followed by arbitrary tails:
the digit blocks dominate, numerically. -/
theorem lexLe_blocks : ∀ {a b : List Char} (u v : List Char),
    a.length = b.length → allDigits a = true → allDigits b = true →
    (lexLe (a ++ u) (b ++ v) = true ↔
      (digitsToNat a < digitsToNat b ∨ (a = b ∧ lexLe u v = true)))
  | [], [], u, v, _, _, _ => by simp [digitsToNat]
  | [], d :: ds, u, v, hlen, _, _ => by simp at hlen
  | c :: cs, [], u, v, hlen, _, _ => by simp at hlen
  | c :: cs, d :: ds, u, v, hlen, ha, hb => by
    rw [allDigits, List.all_cons, Bool.and_eq_true] at ha hb
    have hlen' : cs.length = ds.length := by simpa using hlen
    have hcs := digitsToNat_lt (l := cs) ha.2
    have hds := digitsToNat_lt (l := ds) hb.2
    by_cases hcd : c = d
    · subst hcd
      have heq : digitsToNat (c :: cs) < digitsToNat (c :: ds) ↔
          digitsToNat cs < digitsToNat ds := by
        simp only [digitsToNat, hlen']
        omega
      calc lexLe ((c :: cs) ++ u) ((c :: ds) ++ v) = true
          ↔ lexLe (cs ++ u) (ds ++ v) = true := by simp [lexLe]
        _ ↔ (digitsToNat cs < digitsToNat ds ∨ (cs = ds ∧ lexLe u v = true)) :=
              lexLe_blocks u v hlen' ha.2 hb.2
        _ ↔ (digitsToNat (c :: cs) < digitsToNat (c :: ds) ∨
              ((c :: cs) = (c :: ds) ∧ lexLe u v = true)) := by
              rw [heq]; simp
    · have hvcd : digitVal c ≠ digitVal d := fun h => hcd (digit_val_inj ha.1 hb.1 h)
      have hblock : digitsToNat (c :: cs) < digitsToNat (d :: ds) ↔ digitVal c < digitVal d := by
        constructor
        · intro h
          rcases Nat.lt_trichotomy (digitVal c) (digitVal d) with h'|h'|h'
          · exact h'
          · exact absurd h' hvcd
          · exact absurd h (Nat.not_lt_of_gt
              (by simpa only [digitsToNat, hlen'] using digit_block_lt hds h'))
        · intro h'
          simpa only [digitsToNat, hlen'] using
            digit_block_lt (y := digitsToNat ds) hcs h'
      rw [List.cons_append, List.cons_append]
      show (if c = d then lexLe (cs ++ u) (ds ++ v) else decide (c < d)) = true ↔ _
      rw [if_neg hcd]
      simp only [decide_eq_true_eq, hblock, List.cons.injEq]
      constructor
      · intro h
        exact Or.inl ((digit_lt_iff ha.1 hb.1).mp h)
      · rintro (h | ⟨⟨h1, _⟩, _⟩)
        · exact (digit_lt_iff ha.1 hb.1).mpr h
        · exact absurd h1 hcd

/-! ## Inversion lemmas for the embedded `strptime` parsers -/

theorem stripLit_some : ∀ {p s r : List Char}, stripLit p s = some r → s = p ++ r
  | [], s, r, h => by simpa [stripLit] using Option.some.inj h
  | p :: ps, [], r, h => by simp [stripLit] at h
  | p :: ps, c :: cs, r, h => by
    by_cases hpc : p = c
    · subst hpc
      simp only [stripLit, if_pos rfl] at h
      simpa using stripLit_some h
    · simp [stripLit, hpc] at h

theorem takeDigitsN_some {n : Nat} {s d r : List Char}
    (h : takeDigitsN n s = some (d, r)) :
    s = d ++ r ∧ d.length = n ∧ allDigits d = true := by
  unfold takeDigitsN at h
  split at h
  · rename_i hcond
    simp only [Option.some.injEq, Prod.mk.injEq] at h
    obtain ⟨h1, h2⟩ := h
    subst h1; subst h2
    exact ⟨(List.take_append_drop n s).symm, hcond.1, hcond.2⟩
  · exact absurd h (by simp)

theorem daysInMonth_le (y m : Nat) : daysInMonth y m ≤ 31 := by
  unfold daysInMonth
  split_ifs <;> omega

theorem parseDate8_some {ds : List Char} {t : PyDateTime}
    (h : parseDate8 ds = some t) :
    ds.length = 8 ∧ allDigits ds = true ∧
    t.year = digitsToNat (ds.take 4) ∧
    t.month = digitsToNat ((ds.drop 4).take 2) ∧
    t.day = digitsToNat (ds.drop 6) ∧
    t.hour = 0 ∧ t.minute = 0 ∧ t.second = 0 ∧
    1 ≤ t.year ∧ t.year ≤ 9999 ∧ 1 ≤ t.month ∧ t.month ≤ 12 ∧
    1 ≤ t.day ∧ t.day ≤ 31 := by
  unfold parseDate8 at h
  split at h
  case _ a b c d e f g h8 =>
    split at h
    · rename_i hdig
      split at h
      · rename_i hrange
        obtain rfl := (Option.some.inj h).symm
        refine ⟨rfl, hdig, rfl, rfl, rfl, rfl, rfl, rfl, hrange.1, ?_,
          hrange.2.1, hrange.2.2.1, hrange.2.2.2.1,
          le_trans hrange.2.2.2.2 (daysInMonth_le _ _)⟩
        have hd4 : allDigits [a, b, c, d] = true := by
          rw [allDigits, List.all_cons, List.all_cons, List.all_cons, List.all_cons] at hdig ⊢
          simp only [Bool.and_eq_true] at hdig ⊢
          tauto
        have h4 := digitsToNat_lt hd4
        norm_num at h4
        show digitsToNat [a, b, c, d] ≤ 9999
        omega
      · exact absurd h (by simp)
    · exact absurd h (by simp)
  case _ => exact absurd h (by simp)

theorem parseHourlyFilename_some {s : List Char} {t : PyDateTime}
    (h : parseHourlyFilename s = some t) :
    ∃ d8 t6, s = ("OOI-D").data ++ (d8 ++ (("-T").data ++ (t6 ++ (".nc").data))) ∧
      d8.length = 8 ∧ allDigits d8 = true ∧ t6.length = 6 ∧ allDigits t6 = true ∧
      t.year = digitsToNat (d8.take 4) ∧ t.month = digitsToNat ((d8.drop 4).take 2) ∧
      t.day = digitsToNat (d8.drop 6) ∧ t.hour = digitsToNat (t6.take 2) ∧
      t.minute = digitsToNat ((t6.drop 2).take 2) ∧ t.second = digitsToNat (t6.drop 4) ∧
      1 ≤ t.year ∧ t.year ≤ 9999 ∧ 1 ≤ t.month ∧ t.month ≤ 12 ∧
      1 ≤ t.day ∧ t.day ≤ 31 ∧ t.hour ≤ 23 ∧ t.minute ≤ 59 ∧ t.second ≤ 59 := by
  unfold parseHourlyFilename at h
  obtain ⟨s1, hA, h⟩ := Option.bind_eq_some.mp h
  obtain ⟨⟨d8, s2⟩, hB, h⟩ := Option.bind_eq_some.mp h
  obtain ⟨s3, hC, h⟩ := Option.bind_eq_some.mp h
  obtain ⟨⟨t6, s4⟩, hD, h⟩ := Option.bind_eq_some.mp h
  simp only [] at h
  have hnc : s4 = (".nc").data := by
    by_contra hx
    rw [if_neg hx] at h
    exact absurd h (by simp)
  rw [if_pos hnc] at h
  obtain ⟨d, hdate, h⟩ := Option.bind_eq_some.mp h
  obtain ⟨hd8, hlen8, hdig8⟩ := takeDigitsN_some hB
  obtain ⟨ht6, hlen6, hdig6⟩ := takeDigitsN_some hD
  have hdate' := parseDate8_some hdate
  split at h
  · rename_i hhms
    obtain rfl := (Option.some.inj h).symm
    refine ⟨d8, t6, ?_, hlen8, hdig8, hlen6, hdig6,
      hdate'.2.2.1, hdate'.2.2.2.1, hdate'.2.2.2.2.1, rfl, rfl, rfl,
      hdate'.2.2.2.2.2.2.2.2.1, hdate'.2.2.2.2.2.2.2.2.2.1,
      hdate'.2.2.2.2.2.2.2.2.2.2.1, hdate'.2.2.2.2.2.2.2.2.2.2.2.1,
      hdate'.2.2.2.2.2.2.2.2.2.2.2.2.1, hdate'.2.2.2.2.2.2.2.2.2.2.2.2.2,
      hhms.1, hhms.2.1, hhms.2.2⟩
    have hC' : stripLit (("-T").data) s2 = some s3 := hC
    rw [stripLit_some hA, hd8, stripLit_some hC', ht6, hnc]
  · exact absurd h (by simp)

/-! ## Datetime order versus the packed key -/

theorem dtLe_iff_key {a b : PyDateTime} (ha2 : a.month < 100) (ha3 : a.day < 100)
    (ha4 : a.hour < 100) (ha5 : a.minute < 100) (ha6 : a.second < 100)
    (hb2 : b.month < 100) (hb3 : b.day < 100) (hb4 : b.hour < 100)
    (hb5 : b.minute < 100) (hb6 : b.second < 100) :
    dtLe a b = true ↔ dtKey a ≤ dtKey b := by
  obtain ⟨y1, mo1, d1, h1, mi1, s1⟩ := a
  obtain ⟨y2, mo2, d2, h2, mi2, s2⟩ := b
  simp only [dtLe, dtLt, dtList, natListLt, dtKey, Bool.or_eq_true, Bool.and_eq_true,
    decide_eq_true_eq, PyDateTime.mk.injEq] at *
  omega

/-! ## Structure of exact hourly names -/

/-- The exact 24-character hourly name built from a date block and a time
block. -/
def hourlyName (d8 t6 : List Char) : List Char :=
  ("OOI-D").data ++ (d8 ++ (("-T").data ++ (t6 ++ (".nc").data)))

theorem exists_len_eight {l : List Char} (h : l.length = 8) :
    ∃ a b c d e f g k, l = [a, b, c, d, e, f, g, k] := by
  rcases l with _ | ⟨a, _ | ⟨b, _ | ⟨c, _ | ⟨d, _ | ⟨e, _ | ⟨f, _ | ⟨g, _ | ⟨k, _ | ⟨m, l⟩⟩⟩⟩⟩⟩⟩⟩⟩ <;>
    simp at h
  exact ⟨a, b, c, d, e, f, g, k, rfl⟩

theorem exists_len_six {l : List Char} (h : l.length = 6) :
    ∃ a b c d e f, l = [a, b, c, d, e, f] := by
  rcases l with _ | ⟨a, _ | ⟨b, _ | ⟨c, _ | ⟨d, _ | ⟨e, _ | ⟨f, _ | ⟨g, l⟩⟩⟩⟩⟩⟩⟩ <;>
    simp at h
  exact ⟨a, b, c, d, e, f, rfl⟩

theorem hourlyRegexMatch_hourlyName {d8 t6 : List Char} (h8 : d8.length = 8)
    (h6 : t6.length = 6) (hd : allDigits d8 = true) (ht : allDigits t6 = true) :
    hourlyRegexMatch (hourlyName d8 t6) = true := by
  obtain ⟨a, b, c, d, e, f, g, k, rfl⟩ := exists_len_eight h8
  obtain ⟨p, q, r, u, v, w, rfl⟩ := exists_len_six h6
  simp only [hourlyRegexMatch, hourlyName]
  rw [decide_eq_true_eq]
  exact ⟨rfl, hd, rfl, ht, rfl⟩

theorem hourlyName_take_drop {d8 t6 : List Char} (h8 : d8.length = 8)
    (h6 : t6.length = 6) :
    ((hourlyName d8 t6).drop 5).take 8 = d8 ∧
    ((hourlyName d8 t6).drop 15).take 6 = t6 ∧
    (hourlyName d8 t6).length = 24 := by
  obtain ⟨a, b, c, d, e, f, g, k, rfl⟩ := exists_len_eight h8
  obtain ⟨p, q, r, u, v, w, rfl⟩ := exists_len_six h6
  exact ⟨rfl, rfl, rfl⟩

theorem hourlyExactForm_inv {f : List Char} (h : hourlyExactForm f = true) :
    ∃ d8 t6, f = hourlyName d8 t6 ∧ d8.length = 8 ∧ allDigits d8 = true ∧
      t6.length = 6 ∧ allDigits t6 = true := by
  rw [hourlyExactForm, Bool.and_eq_true, hourlyRegexMatch, decide_eq_true_eq,
    decide_eq_true_eq] at h
  obtain ⟨⟨h5, hd8, hT, ht6, hnc⟩, hlen⟩ := h
  have e5 : f = f.take 5 ++ f.drop 5 := (List.take_append_drop 5 f).symm
  have e13 : f.drop 5 = (f.drop 5).take 8 ++ f.drop 13 := by
    have := (List.take_append_drop 8 (f.drop 5)).symm
    rwa [List.drop_drop] at this
  have e15 : f.drop 13 = (f.drop 13).take 2 ++ f.drop 15 := by
    have := (List.take_append_drop 2 (f.drop 13)).symm
    rwa [List.drop_drop] at this
  have e21 : f.drop 15 = (f.drop 15).take 6 ++ f.drop 21 := by
    have := (List.take_append_drop 6 (f.drop 15)).symm
    rwa [List.drop_drop] at this
  have hlen21 : (f.drop 21).length = 3 := by
    rw [List.length_drop, hlen]
  have e24 : f.drop 21 = (".nc").data := by
    rw [← hnc, List.take_of_length_le (by rw [hlen21])]
  have hl8 : ((f.drop 5).take 8).length = 8 := by
    rw [List.length_take, List.length_drop, hlen]
    omega
  have hl6 : ((f.drop 15).take 6).length = 6 := by
    rw [List.length_take, List.length_drop, hlen]
    omega
  refine ⟨(f.drop 5).take 8, (f.drop 15).take 6, ?_, hl8, hd8, hl6, ht6⟩
  rw [hourlyName, ← h5, ← hT, ← e24]
  calc f = f.take 5 ++ f.drop 5 := e5
    _ = f.take 5 ++ ((f.drop 5).take 8 ++ f.drop 13) := by rw [← e13]
    _ = f.take 5 ++ ((f.drop 5).take 8 ++ ((f.drop 13).take 2 ++ f.drop 15)) := by
          rw [← e15]
    _ = f.take 5 ++ ((f.drop 5).take 8 ++ ((f.drop 13).take 2 ++
          ((f.drop 15).take 6 ++ f.drop 21))) := by rw [← e21]

/-! ## `sorted(...)[0]` is the least element -/

instance lexLeIsTotal : IsTotal (List Char) (fun a b => lexLe a b = true) :=
  ⟨lexLe_total⟩

instance lexLeIsTrans : IsTrans (List Char) (fun a b => lexLe a b = true) :=
  ⟨fun _ _ _ => lexLe_trans⟩

theorem pySorted_head_min {l : List (List Char)} (h : l ≠ []) :
    (pySorted l).headI ∈ l ∧ ∀ x ∈ l, lexLe (pySorted l).headI x = true := by
  have hp : List.Perm (pySorted l) l := List.perm_insertionSort _ l
  have hs : List.Sorted (fun a b => lexLe a b = true) (pySorted l) :=
    List.sorted_insertionSort _ l
  have hne : pySorted l ≠ [] := by
    intro h0
    apply h
    have hnil : List.Perm l ([] : List (List Char)) := by rw [← h0]; exact hp.symm
    exact hnil.eq_nil
  obtain ⟨a, tl, hcons⟩ := List.exists_cons_of_ne_nil hne
  have hhead : (pySorted l).headI = a := by rw [hcons]; rfl
  constructor
  · rw [hhead]
    exact hp.mem_iff.mp (by rw [hcons]; exact List.mem_cons_self a tl)
  · intro x hx
    have hx' : x ∈ pySorted l := hp.mem_iff.mpr hx
    rw [hcons] at hx'
    rw [hhead]
    rcases List.mem_cons.mp hx' with rfl | hx''
    · exact lexLe_refl x
    · exact List.rel_of_sorted_cons (hcons ▸ hs) x hx''

/-! ## Claim C4 core: string order equals timestamp order on hourly names -/

theorem dv8_split {l : List Char} (h : l.length = 8) :
    digitsToNat l = digitsToNat (l.take 4) * 10000 +
      (digitsToNat ((l.drop 4).take 2) * 100 + digitsToNat (l.drop 6)) := by
  obtain ⟨a, b, c, d, e, f, g, k, rfl⟩ := exists_len_eight h
  show digitsToNat ([a, b, c, d] ++ ([e, f] ++ [g, k])) = _
  rw [digitsToNat_append, digitsToNat_append]
  norm_num

theorem dv6_split {l : List Char} (h : l.length = 6) :
    digitsToNat l = digitsToNat (l.take 2) * 10000 +
      (digitsToNat ((l.drop 2).take 2) * 100 + digitsToNat (l.drop 4)) := by
  obtain ⟨a, b, c, d, e, f, rfl⟩ := exists_len_six h
  show digitsToNat ([a, b] ++ ([c, d] ++ [e, f])) = _
  rw [digitsToNat_append, digitsToNat_append]
  norm_num

/-- On file names that `strptime` accepts for the hourly format,
lexicographic string order coincides with chronological order of the
embedded timestamps. -/
theorem lex_iff_chrono {f1 f2 : List Char} {t1 t2 : PyDateTime}
    (h1 : parseHourlyFilename f1 = some t1)
    (h2 : parseHourlyFilename f2 = some t2) :
    (lexLe f1 f2 = true ↔ dtLe t1 t2 = true) := by
  obtain ⟨da, ta, hf1, l8a, dga, l6a, dta, hy1, hmo1, hd1, hh1, hmi1, hs1,
    _, hy1u, _, hmo1u, _, hd1u, hh1u, hmi1u, hs1u⟩ := parseHourlyFilename_some h1
  obtain ⟨db, tb, hf2, l8b, dgb, l6b, dtb, hy2, hmo2, hd2, hh2, hmi2, hs2,
    _, hy2u, _, hmo2u, _, hd2u, hh2u, hmi2u, hs2u⟩ := parseHourlyFilename_some h2
  subst hf1; subst hf2
  have key1 : dtKey t1 = digitsToNat da * 1000000 + digitsToNat ta := by
    rw [dtKey, hy1, hmo1, hd1, hh1, hmi1, hs1, dv8_split l8a, dv6_split l6a]
    ring
  have key2 : dtKey t2 = digitsToNat db * 1000000 + digitsToNat tb := by
    rw [dtKey, hy2, hmo2, hd2, hh2, hmi2, hs2, dv8_split l8b, dv6_split l6b]
    ring
  have hb6a : digitsToNat ta < 1000000 := by
    have := digitsToNat_lt dta
    rw [l6a] at this
    norm_num at this
    exact this
  have hb6b : digitsToNat tb < 1000000 := by
    have := digitsToNat_lt dtb
    rw [l6b] at this
    norm_num at this
    exact this
  have hlex : lexLe (("OOI-D").data ++ (da ++ (("-T").data ++ (ta ++ (".nc").data))))
      (("OOI-D").data ++ (db ++ (("-T").data ++ (tb ++ (".nc").data)))) = true ↔
      (digitsToNat da < digitsToNat db ∨
        (da = db ∧ (digitsToNat ta < digitsToNat tb ∨ ta = tb))) := by
    rw [lexLe_append_left, lexLe_blocks _ _ (by rw [l8a, l8b]) dga dgb,
      lexLe_append_left, lexLe_blocks _ _ (by rw [l6a, l6b]) dta dtb]
    simp [lexLe_refl]
  have hkey : dtLe t1 t2 = true ↔ dtKey t1 ≤ dtKey t2 := by
    refine dtLe_iff_key ?_ ?_ ?_ ?_ ?_ ?_ ?_ ?_ ?_ ?_ <;> omega
  have eq8 : da = db ↔ digitsToNat da = digitsToNat db :=
    ⟨fun h => by rw [h], fun h => digitsToNat_inj (by rw [l8a, l8b]) dga dgb h⟩
  have eq6 : ta = tb ↔ digitsToNat ta = digitsToNat tb :=
    ⟨fun h => by rw [h], fun h => digitsToNat_inj (by rw [l6a, l6b]) dta dtb h⟩
  rw [hlex, hkey, key1, key2, eq8, eq6]
  omega

/-- Claim C4: for hourly-form filenames (with parseable embedded
timestamps), lexicographic string order coincides with chronological order
of the embedded timestamps, and the file the loader opens — the
lexicographically first entry of the sorted survivors, `sorted(...)[0]` —
is the chronologically earliest one. -/
theorem c4_theorem (l : List (List Char)) (f1 f2 : List Char)
    (t1 t2 : PyDateTime)
    (h1 : parseHourlyFilename f1 = some t1)
    (h2 : parseHourlyFilename f2 = some t2)
    (hne : l ≠ []) :
    (lexLe f1 f2 = true ↔ dtLe t1 t2 = true) ∧
    (pySorted l).headI ∈ l ∧
    (∀ f t th, f ∈ l → parseHourlyFilename f = some t →
      parseHourlyFilename ((pySorted l).headI) = some th → dtLe th t = true) := by
  obtain ⟨hmem, hmin⟩ := pySorted_head_min hne
  refine ⟨lex_iff_chrono h1 h2, hmem, ?_⟩
  intro f t th hf hp hph
  exact (lex_iff_chrono hph hp).mp (hmin f hf)

/-- Witness for C4 at a concrete two-element directory. -/
theorem c4_witness :
    (lexLe (("OOI-D20191020-T013835.nc").data) (("OOI-D20191021-T013835.nc").data) = true ↔
      dtLe ⟨2019, 10, 20, 1, 38, 35⟩ ⟨2019, 10, 21, 1, 38, 35⟩ = true) ∧
    (pySorted [("OOI-D20191021-T013835.nc").data, ("OOI-D20191020-T013835.nc").data]).headI ∈
      [("OOI-D20191021-T013835.nc").data, ("OOI-D20191020-T013835.nc").data] ∧
    dtLe ⟨2019, 10, 20, 1, 38, 35⟩ ⟨2019, 10, 21, 1, 38, 35⟩ = true := by
  obtain ⟨hiff, hmem, hmin⟩ :=
    c4_theorem [("OOI-D20191021-T013835.nc").data, ("OOI-D20191020-T013835.nc").data]
      (("OOI-D20191020-T013835.nc").data) (("OOI-D20191021-T013835.nc").data)
      ⟨2019, 10, 20, 1, 38, 35⟩ ⟨2019, 10, 21, 1, 38, 35⟩
      (by decide) (by decide) (by decide)
  refine ⟨hiff, hmem, ?_⟩
  exact hmin (("OOI-D20191021-T013835.nc").data) ⟨2019, 10, 21, 1, 38, 35⟩
    ⟨2019, 10, 20, 1, 38, 35⟩ (by decide) (by decide) (by decide)

/-- Claim C7: the provenance transformer is a no-op — every field unchanged
— whenever the echogram type is Hourly or the source-file reference is
absent or empty, and is therefore idempotent under arbitrarily repeated
invocation in those cases. -/
theorem c7_theorem (etype : List Char) (first last : PyDateTime)
    (prov : Provenance)
    (h : etype = hourlyText ∨ prov.data_file_name = none ∨
      prov.data_file_name = some []) :
    modify_provenance_for_echogram_type etype first last prov = .ok prov ∧
    ∀ n : Nat, iterateModify etype first last n prov = .ok prov := by
  have hbase : modify_provenance_for_echogram_type etype first last prov = .ok prov := by
    unfold modify_provenance_for_echogram_type
    split
    · rfl
    · rename_i dfn hd
      rcases h with h | h | h
      · rw [if_pos (Or.inl h)]
      · rw [hd] at h; cases h
      · rw [hd] at h
        injection h with h
        rw [if_pos (Or.inr h)]
  refine ⟨hbase, ?_⟩
  intro n
  induction n with
  | zero => rfl
  | succ n ih =>
    rw [iterateModify, hbase]
    exact ih

/-! ## Error classification of the stages of `parse_file` -/

theorem addOneDay_error {t : PyDateTime} {e : PyErr} (h : addOneDay t = .error e) :
    e = .overflowError (("date value out of range").data) := by
  unfold addOneDay at h
  split_ifs at h <;> simp_all

theorem subOneDay_error {t : PyDateTime} {e : PyErr} (h : subOneDay t = .error e) :
    e = .overflowError (("date value out of range").data) := by
  unfold subOneDay at h
  split_ifs at h <;> simp_all

theorem filterHourly_error {etype : List Char} {pat : HourlyPat}
    {startDt stopDt : PyDateTime} :
    ∀ {l : List (List Char)} {e : PyErr},
    filterHourly etype pat startDt stopDt l = .error e → ∃ d, e = .valueError d := by
  intro l
  induction l with
  | nil => intro e h; simp [filterHourly] at h
  | cons f rest ih =>
    intro e h
    unfold filterHourly at h
    split at h
    · split at h
      · cases hr : filterHourly etype pat startDt stopDt rest with
        | error e2 => rw [hr] at h; exact ih (by rw [← (Except.error.inj h)]; exact hr)
        | ok l2 => rw [hr] at h; simp at h
      · cases hp : parseHourlyFilename f with
        | none => rw [hp] at h; exact ⟨f, (Except.error.inj h).symm⟩
        | some t =>
          rw [hp] at h
          dsimp only at h
          split at h
          · cases hr : filterHourly etype pat startDt stopDt rest with
            | error e2 => rw [hr] at h; exact ih (by rw [← (Except.error.inj h)]; exact hr)
            | ok l2 => rw [hr] at h; simp at h
          · exact ih h
    · exact ih h

theorem set_provenance_error {env : Env} {path : List Char} {e : PyErr}
    (h : (set_provenance_from_hourly_file env path).1 = .error e) :
    (∃ p, e = .ioError p) ∨ (∃ msg, e = .attributeError msg) := by
  unfold set_provenance_from_hourly_file at h
  cases ho : env.openFile path with
  | none => rw [ho] at h; exact Or.inl ⟨path, (Except.error.inj h).symm⟩
  | some nc =>
    rw [ho] at h
    dsimp only at h
    cases h1 : nc.srcFilenames <;> rw [h1] at h <;> dsimp only at h
    case none => exact Or.inr ⟨_, (Except.error.inj h).symm⟩
    case some =>
      cases h2 : nc.conversionSoftwareName <;> rw [h2] at h <;> dsimp only at h
      case none => exact Or.inr ⟨_, (Except.error.inj h).symm⟩
      case some =>
        cases h3 : nc.conversionSoftwareVersion <;> rw [h3] at h <;> dsimp only at h
        case none => exact Or.inr ⟨_, (Except.error.inj h).symm⟩
        case some =>
          cases h4 : nc.conversionTime <;> rw [h4] at h <;> dsimp only at h
          case none => exact Or.inr ⟨_, (Except.error.inj h).symm⟩
          case some => simp at h

theorem get_first_ping_error {env : Env} {etype : List Char} {e : PyErr}
    (h : (get_first_ping_time_from_echogram env etype).1 = .error e) :
    (∃ p, e = .ioError p) ∨ (∃ msg, e = .attributeError msg) := by
  unfold get_first_ping_time_from_echogram at h
  cases ho : env.openFile env.echogramFilepath with
  | none => rw [ho] at h; exact Or.inl ⟨_, (Except.error.inj h).symm⟩
  | some nc =>
    rw [ho] at h
    dsimp only at h
    split at h
    · cases h1 : nc.beamPingTime0 <;> rw [h1] at h <;> dsimp only at h
      case none => exact Or.inr ⟨_, (Except.error.inj h).symm⟩
      case some => simp at h
    · cases h1 : nc.topPingTime0 <;> rw [h1] at h <;> dsimp only at h
      case none => exact Or.inr ⟨_, (Except.error.inj h).symm⟩
      case some => simp at h

theorem modify_error {etype : List Char} {first last : PyDateTime}
    {prov : Provenance} {e : PyErr}
    (h : modify_provenance_for_echogram_type etype first last prov = .error e) :
    e = .overflowError (("date value out of range").data) := by
  unfold modify_provenance_for_echogram_type at h
  split at h
  · simp at h
  · split at h
    · simp at h
    · split at h
      · simp at h
      · cases hs : subOneDay last with
        | error e2 =>
          rw [hs] at h
          dsimp only at h
          obtain rfl := Except.error.inj h
          exact subOneDay_error hs
        | ok l2 =>
          rw [hs] at h
          dsimp only at h
          split at h <;> simp at h

theorem resolveWindow_format {fname : List Char}
    (h1 : rangeSearch fname = none) (h2 : hourlyRegexMatch fname = false) :
    resolveWindow fname = .error (.formatError (formatErrorMsg fname)) := by
  unfold resolveWindow
  rw [h1]
  dsimp only
  rw [if_neg (by rw [h2]; exact Bool.false_ne_true)]

theorem resolveWindow_formatError_inv {fname : List Char} {m : List Char}
    (h : resolveWindow fname = .error (.formatError m)) :
    rangeSearch fname = none ∧ hourlyRegexMatch fname = false ∧
      m = formatErrorMsg fname := by
  unfold resolveWindow at h
  cases hrs : rangeSearch fname with
  | some caps =>
    rw [hrs] at h
    dsimp only at h
    split at h
    · cases hd : caps.date <;> rw [hd] at h <;> dsimp only at h
      case none => simp at h
      case some d8 =>
        cases hp : parseDate8 d8 <;> rw [hp] at h <;> dsimp only at h
        case none => simp at h
        case some sd =>
          cases ha : addOneDay sd <;> rw [ha] at h <;> dsimp only at h
          case error e =>
            obtain rfl := Except.error.inj h
            exact absurd (addOneDay_error ha) (by simp)
          case ok => simp at h
    · cases hp : parseDate8 caps.start_date <;> rw [hp] at h <;> dsimp only at h
      case none => simp at h
      case some sd =>
        cases hq : parseDate8 caps.stop_date <;> rw [hq] at h <;> dsimp only at h
        case none => simp at h
        case some => simp at h
  | none =>
    rw [hrs] at h
    dsimp only at h
    split at h
    · cases hp : parseHourlyFilename fname <;> rw [hp] at h <;> dsimp only at h
      case none => simp at h
      case some => simp at h
    · rename_i hm
      refine ⟨rfl, by simpa using hm, ?_⟩
      simp only [Except.error.injEq, PyErr.formatError.injEq] at h
      exact h.symm

theorem parse_file_formatError_inv {env : Env} {m : List Char}
    (h : (parse_file env).1 = .error (.formatError m)) :
    resolveWindow (pySplit env.echogramFilepath).2 = .error (.formatError m) := by
  unfold parse_file at h
  cases hrw : resolveWindow (pySplit env.echogramFilepath).2 with
  | error e =>
    rw [hrw] at h
    dsimp only at h
    exact congrArg Except.error (Except.error.inj h)
  | ok res =>
    obtain ⟨etype, pat, startDt, stopDt⟩ := res
    rw [hrw] at h
    dsimp only at h
    exfalso
    cases hf : filterHourly etype pat startDt stopDt env.listing with
    | error e =>
      rw [hf] at h
      dsimp only at h
      obtain ⟨d, rfl⟩ := filterHourly_error hf
      exact absurd (Except.error.inj h) (by simp)
    | ok l =>
      rw [hf] at h
      cases l with
      | nil => dsimp only at h; exact absurd (Except.error.inj h) (by simp)
      | cons f fs =>
        dsimp only at h
        cases hsp : set_provenance_from_hourly_file env
            (pyJoin (pySplit env.echogramFilepath).1 (pySorted (f :: fs)).headI) with
        | mk spres sptr =>
          rw [hsp] at h
          cases spres with
          | error e =>
            dsimp only at h
            have he : (set_provenance_from_hourly_file env
                (pyJoin (pySplit env.echogramFilepath).1 (pySorted (f :: fs)).headI)).1 =
                .error e := by rw [hsp]
            rcases set_provenance_error he with ⟨p, rfl⟩ | ⟨msg, rfl⟩ <;>
              exact absurd (Except.error.inj h) (by simp)
          | ok prov =>
            dsimp only at h
            cases hmo : modify_provenance_for_echogram_type etype startDt stopDt prov with
            | error e =>
              rw [hmo] at h
              dsimp only at h
              rw [modify_error hmo] at h
              exact absurd (Except.error.inj h) (by simp)
            | ok prov2 =>
              rw [hmo] at h
              dsimp only at h
              cases hgp : get_first_ping_time_from_echogram env etype with
              | mk gpres gptr =>
                rw [hgp] at h
                cases gpres with
                | error e =>
                  dsimp only at h
                  have he : (get_first_ping_time_from_echogram env etype).1 = .error e := by
                    rw [hgp]
                  rcases get_first_ping_error he with ⟨p, rfl⟩ | ⟨msg, rfl⟩ <;>
                    exact absurd (Except.error.inj h) (by simp)
                | ok fpt =>
                  dsimp only at h
                  cases hct : prov2.conversion_time <;> rw [hct] at h <;> dsimp only at h
                  case none => exact absurd (Except.error.inj h) (by simp)
                  case some => simp at h

/-- Claim C1 (amended: `re.match` anchors the hourly grammar at the start
only, so it is matched as a prefix, not as a whole): `parse_file` raises
the FormatError `SampleException` exactly when the filename matches neither
the range grammar (as a substring) nor the hourly grammar (as a prefix);
the message carries the filename and both attempted regex texts, and such a
run produces no records and touches no file. -/
theorem c1_theorem (env : Env) (fname : List Char)
    (hfn : (pySplit env.echogramFilepath).2 = fname) :
    ((rangeSearch fname = none ∧ hourlyRegexMatch fname = false) →
      parse_file env = (.error (.formatError (formatErrorMsg fname)), []) ∧
      fname <:+: formatErrorMsg fname ∧
      rangeRegexText <:+: formatErrorMsg fname ∧
      hourlyRegexText <:+: formatErrorMsg fname) ∧
    (∀ m, (parse_file env).1 = .error (.formatError m) →
      rangeSearch fname = none ∧ hourlyRegexMatch fname = false) := by
  constructor
  · rintro ⟨h1, h2⟩
    have hrw : resolveWindow (pySplit env.echogramFilepath).2 =
        .error (.formatError (formatErrorMsg fname)) := by
      rw [hfn]; exact resolveWindow_format h1 h2
    refine ⟨?_, ?_, ?_, ?_⟩
    · unfold parse_file
      rw [hrw, hfn]
    · exact ⟨("Filename \"").data,
        ("\" not in either of the expected formats: \"").data ++ rangeRegexText ++
          ("\" or \"").data ++ hourlyRegexText ++ ("\"").data,
        by simp [formatErrorMsg, List.append_assoc]⟩
    · exact ⟨("Filename \"").data ++ fname ++
          ("\" not in either of the expected formats: \"").data,
        ("\" or \"").data ++ hourlyRegexText ++ ("\"").data,
        by simp [formatErrorMsg, List.append_assoc]⟩
    · exact ⟨("Filename \"").data ++ fname ++
          ("\" not in either of the expected formats: \"").data ++ rangeRegexText ++
          ("\" or \"").data,
        ("\"").data,
        by simp [formatErrorMsg, List.append_assoc]⟩
  · intro m h
    have hinv := resolveWindow_formatError_inv (hfn ▸ parse_file_formatError_inv h)
    exact ⟨hinv.1, hinv.2.1⟩

/-- Witness for C1 at the spec's failure scenario `random_file.nc`. -/
theorem c1_witness :
    parse_file envC1w =
      (.error (.formatError (formatErrorMsg (("random_file.nc").data))), []) ∧
    ("random_file.nc").data <:+: formatErrorMsg (("random_file.nc").data) ∧
    rangeRegexText <:+: formatErrorMsg (("random_file.nc").data) ∧
    hourlyRegexText <:+: formatErrorMsg (("random_file.nc").data) :=
  (c1_theorem envC1w (("random_file.nc").data) (by decide)).1 ⟨by decide, by decide⟩

/-- Counterexample to C1 as stated: the filename
`OOI-D20191020-T013835.ncX` matches neither the range grammar (substring)
nor the hourly grammar taken as a whole, yet `parse_file` raises the
`ValueError` of `strptime`, not a FormatError. -/
theorem c1_counterexample :
    rangeSearch (("OOI-D20191020-T013835.ncX").data) = none ∧
    hourlyExactForm (("OOI-D20191020-T013835.ncX").data) = false ∧
    (parse_file envC1x).1 =
      .error (.valueError (("OOI-D20191020-T013835.ncX").data)) ∧
    (parse_file envC1x).1 ≠
      .error (.formatError (formatErrorMsg (("OOI-D20191020-T013835.ncX").data))) := by
  exact ⟨by decide, by decide, by with_unfolding_all decide, by with_unfolding_all decide⟩

/-- Claim C10 (amended: the uncaught `TypeError` comes from the string
concatenation `'OOI-D' + None` on source line 208, which runs one line
before the `strptime(None, ...)` of line 209 could): for every filename
matching the range grammar with `type=Full` and no optional date capture,
`parse_file` raises that TypeError — neither a FormatError nor a
CorrelationError. -/
theorem c10_theorem (env : Env) (fname : List Char) (caps : RangeCaps)
    (hfn : (pySplit env.echogramFilepath).2 = fname)
    (hsearch : rangeSearch fname = some caps)
    (hty : caps.etype = fullText) (hdate : caps.date = none) :
    (parse_file env).1 = .error (.typeError concatNoneMsg) := by
  have hrw : resolveWindow fname = .error (.typeError concatNoneMsg) := by
    unfold resolveWindow
    rw [hsearch]
    dsimp only
    rw [if_pos hty, hdate]
  unfold parse_file
  rw [hfn, hrw]

/-- Witness for C10 on `..._Calibrated_Sv_Full.nc`. -/
theorem c10_witness :
    (parse_file envC10).1 = .error (.typeError concatNoneMsg) :=
  c10_theorem envC10
    (("Bioacoustic_Echogram_20191020-20191027_Calibrated_Sv_Full.nc").data)
    ⟨("20191020").data, ("20191027").data, fullText, none⟩
    (by decide) (by decide) (by decide) (by decide)

/-- Counterexample to C10 as stated: the TypeError is raised, but its
message is that of the `+` concatenation of line 208, not the message
`strptime` would produce for a `None` argument (line 209 is never
reached). -/
theorem c10_counterexample :
    rangeSearch
        (("Bioacoustic_Echogram_20191020-20191027_Calibrated_Sv_Full.nc").data) =
      some ⟨("20191020").data, ("20191027").data, fullText, none⟩ ∧
    (parse_file envC10).1 = .error (.typeError concatNoneMsg) ∧
    concatNoneMsg ≠ strptimeNoneMsg := by
  exact ⟨by decide, by with_unfolding_all decide, by decide⟩

/-- Claim C2 (amended: provided the embedded date is a valid calendar date
and not `datetime.max`'s day 9999-12-31, where the `timedelta` addition
raises OverflowError): a range-grammar filename with `type=Full` and date
`D` resolves to the window `[D, D+1 day)` with the day-`D`-only hourly
pattern, and that pattern selects, among exact hourly-form names, exactly
those whose date field is `D`. -/
theorem c2_theorem (fname : List Char) (caps : RangeCaps) (d8 : List Char)
    (startDt stopDt : PyDateTime)
    (hs : rangeSearch fname = some caps) (hty : caps.etype = fullText)
    (hd : caps.date = some d8) (hp : parseDate8 d8 = some startDt)
    (ha : addOneDay startDt = .ok stopDt) :
    resolveWindow fname = .ok (fullText, .fullDay d8, startDt, stopDt) ∧
    startDt.year = digitsToNat (d8.take 4) ∧
    startDt.month = digitsToNat ((d8.drop 4).take 2) ∧
    startDt.day = digitsToNat (d8.drop 6) ∧
    (∀ f, hourlyExactForm f = true →
      (HourlyPat.matches (.fullDay d8) f = true ↔ (f.drop 5).take 8 = d8)) := by
  have hpi := parseDate8_some hp
  refine ⟨?_, hpi.2.2.1, hpi.2.2.2.1, hpi.2.2.2.2.1, ?_⟩
  · unfold resolveWindow
    rw [hs]
    dsimp only
    rw [if_pos hty, hd]
    dsimp only
    rw [hp]
    dsimp only
    rw [ha]
  · intro f hf
    rw [hourlyExactForm, Bool.and_eq_true] at hf
    simp [HourlyPat.matches, hf.1]

/-- Witness for C2 at the spec's scenario-2 filename. -/
theorem c2_witness :
    resolveWindow
        (("CE_Bioacoustic_Echogram_20191020-20191027_Calibrated_Sv_Full_20191020.nc").data) =
      .ok (fullText, .fullDay (("20191020").data), ⟨2019, 10, 20, 0, 0, 0⟩,
        ⟨2019, 10, 21, 0, 0, 0⟩) ∧
    (HourlyPat.matches (.fullDay (("20191020").data))
        (("OOI-D20191020-T013835.nc").data) = true ↔
      ((("OOI-D20191020-T013835.nc").data.drop 5).take 8 = ("20191020").data)) := by
  obtain ⟨h1, _, _, _, h5⟩ :=
    c2_theorem
      (("CE_Bioacoustic_Echogram_20191020-20191027_Calibrated_Sv_Full_20191020.nc").data)
      ⟨("20191020").data, ("20191027").data, fullText, some (("20191020").data)⟩
      (("20191020").data) ⟨2019, 10, 20, 0, 0, 0⟩ ⟨2019, 10, 21, 0, 0, 0⟩
      (by decide) (by decide) (by decide) (by decide) (by decide)
  exact ⟨h1, h5 _ (by decide)⟩

/-- Counterexample to C2 as stated: for the valid embedded date 9999-12-31
the `+ timedelta(days=1)` of line 211 raises OverflowError, so
classification yields no descriptor at all. -/
theorem c2_counterexample :
    rangeSearch
        (("Bioacoustic_Echogram_20190101-20190102_Calibrated_Sv_Full_99991231.nc").data) =
      some ⟨("20190101").data, ("20190102").data, fullText, some (("99991231").data)⟩ ∧
    parseDate8 (("99991231").data) = some ⟨9999, 12, 31, 0, 0, 0⟩ ∧
    resolveWindow
        (("Bioacoustic_Echogram_20190101-20190102_Calibrated_Sv_Full_99991231.nc").data) =
      .error (.overflowError (("date value out of range").data)) := by
  exact ⟨by decide, by decide, by decide⟩

/-- Witness for C7: an Hourly-type invocation leaves a populated provenance
record untouched, also after three repetitions. -/
theorem c7_witness :
    modify_provenance_for_echogram_type hourlyText ⟨2019, 10, 20, 0, 0, 0⟩
      ⟨2019, 10, 20, 0, 0, 0⟩ provC7w = .ok provC7w ∧
    iterateModify hourlyText ⟨2019, 10, 20, 0, 0, 0⟩ ⟨2019, 10, 20, 0, 0, 0⟩ 3
      provC7w = .ok provC7w := by
  obtain ⟨h1, h2⟩ :=
    c7_theorem hourlyText ⟨2019, 10, 20, 0, 0, 0⟩ ⟨2019, 10, 20, 0, 0, 0⟩
      provC7w (Or.inl rfl)
  exact ⟨h1, h2 3⟩

/-! ## Claim C8: the hourly classification branch -/

theorem rangeSearch_eq_none_of_no_B {s : List Char} (h : 'B' ∉ s) :
    rangeSearch s = none := by
  induction s with
  | nil => decide
  | cons c cs ih =>
    have hc : c ≠ 'B' := fun hh => h (hh ▸ List.mem_cons_self c cs)
    have hm : rangeMatchAt (c :: cs) = none := by
      unfold rangeMatchAt
      have hstrip : stripLit (("Bioacoustic_Echogram_").data) (c :: cs) = none := by
        show (if 'B' = c then _ else none) = none
        rw [if_neg (fun hh => hc hh.symm)]
      rw [hstrip]
    unfold rangeSearch
    rw [hm]
    dsimp only
    exact ih (fun hh => h (List.mem_cons_of_mem c hh))

theorem hourlyName_no_B {d8 t6 : List Char} (h8 : allDigits d8 = true)
    (h6 : allDigits t6 = true) : 'B' ∉ hourlyName d8 t6 := by
  intro hmem
  rw [hourlyName] at hmem
  rcases List.mem_append.mp hmem with h | h
  · exact absurd h (by decide)
  rcases List.mem_append.mp h with h | h
  · exact absurd (List.all_eq_true.mp h8 _ h) (by decide)
  rcases List.mem_append.mp h with h | h
  · exact absurd h (by decide)
  rcases List.mem_append.mp h with h | h
  · exact absurd (List.all_eq_true.mp h6 _ h) (by decide)
  · exact absurd h (by decide)

/-- Claim C8 (amended: provided the embedded date and time fields form a
valid datetime, which `strptime` otherwise rejects with ValueError): a
filename of the hourly form with date digits `D` classifies as Hourly with
`rangeStart = rangeStop`, both on the day `D`. -/
theorem c8_theorem (fname : List Char) (t : PyDateTime)
    (hp : parseHourlyFilename fname = some t) :
    resolveWindow fname = .ok (hourlyText, .selfName fname, t, t) ∧
    t.year = digitsToNat (((fname.drop 5).take 8).take 4) ∧
    t.month = digitsToNat ((((fname.drop 5).take 8).drop 4).take 2) ∧
    t.day = digitsToNat (((fname.drop 5).take 8).drop 6) := by
  obtain ⟨d8, t6, hform, l8, dg8, l6, dg6, hy, hmo, hd, _⟩ :=
    parseHourlyFilename_some hp
  have hfn : fname = hourlyName d8 t6 := hform
  subst hfn
  have hslice := hourlyName_take_drop l8 l6
  refine ⟨?_, ?_, ?_, ?_⟩
  · unfold resolveWindow
    rw [rangeSearch_eq_none_of_no_B (hourlyName_no_B dg8 dg6)]
    dsimp only
    rw [if_pos (hourlyRegexMatch_hourlyName l8 l6 dg8 dg6), hp]
  · rw [hslice.1]; exact hy
  · rw [hslice.1]; exact hmo
  · rw [hslice.1]; exact hd

/-- Witness for C8 at the spec's scenario-1 filename. -/
theorem c8_witness :
    resolveWindow (("OOI-D20191020-T013835.nc").data) =
      .ok (hourlyText, .selfName (("OOI-D20191020-T013835.nc").data),
        ⟨2019, 10, 20, 1, 38, 35⟩, ⟨2019, 10, 20, 1, 38, 35⟩) ∧
    (2019 : Nat) = digitsToNat (((("OOI-D20191020-T013835.nc").data.drop 5).take 8).take 4) := by
  obtain ⟨h1, h2, _⟩ :=
    c8_theorem (("OOI-D20191020-T013835.nc").data) ⟨2019, 10, 20, 1, 38, 35⟩
      (by decide)
  exact ⟨h1, h2⟩

/-- Counterexample to C8 as stated: `OOI-D20191020-T250000.nc` is of the
hourly form with date 20191020, yet hour 25 makes `strptime` raise
ValueError, so classification yields no descriptor. -/
theorem c8_counterexample :
    hourlyExactForm (("OOI-D20191020-T250000.nc").data) = true ∧
    ((("OOI-D20191020-T250000.nc").data.drop 5).take 8) = ("20191020").data ∧
    resolveWindow (("OOI-D20191020-T250000.nc").data) =
      .error (.valueError (("OOI-D20191020-T250000.nc").data)) := by
  exact ⟨by decide, by decide, by decide⟩

/-- Claim C5 (amended: the second path is appended exactly when the
inclusive last covered day is strictly AFTER the start day, not merely
different from it; and `intervalStop` must be above `datetime.min`, where
the day subtraction would raise OverflowError): the Averaged transformer
rewrites a non-empty source-file reference to the start-day path
`<year-dir>/<MM>/<DD>/<stem>D*-T*<ext>`, appending the last-covered-day
path joined by the literal `" ... "` separator exactly when that day is
after the start day; otherwise the result is the single start-day path. -/
theorem c5_theorem (first last last2 : PyDateTime) (prov : Provenance)
    (dfn : List Char) (hdfn : prov.data_file_name = some dfn) (hne : dfn ≠ [])
    (hsub : subOneDay last = .ok last2) :
    modify_provenance_for_echogram_type avgText first last prov =
      .ok { prov with data_file_name := some (specAvgPath dfn first ++
        (if dtLt first last2 = true then (" ... ").data ++ specAvgPath dfn last2
         else [])) } := by
  unfold modify_provenance_for_echogram_type
  rw [hdfn]
  dsimp only
  rw [if_neg (fun hor => hor.elim (by decide) hne)]
  rw [if_neg (by decide : ¬(avgText = fullText))]
  rw [hsub]
  dsimp only
  by_cases hlt : dtLt first last2 = true
  · rw [if_pos hlt, if_pos hlt]
    simp [specAvgPath, List.append_assoc]
  · rw [if_neg hlt, if_neg hlt]
    simp [specAvgPath]

/-- Witness for C5 at the spec's scenario-3 interval (start 2019-10-20,
stop 2019-10-27, last covered day 2019-10-26). -/
theorem c5_witness :
    modify_provenance_for_echogram_type avgText ⟨2019, 10, 20, 0, 0, 0⟩
      ⟨2019, 10, 27, 0, 0, 0⟩ provC7w =
      .ok { provC7w with data_file_name := some (("/data/testing/zplsc/ce04osps/2017/10/20/OOI-D*-T*.raw ... /data/testing/zplsc/ce04osps/2017/10/26/OOI-D*-T*.raw").data) } := by
  have h := c5_theorem ⟨2019, 10, 20, 0, 0, 0⟩ ⟨2019, 10, 27, 0, 0, 0⟩
    ⟨2019, 10, 26, 0, 0, 0⟩ provC7w
    (("/data/testing/zplsc/ce04osps/2017/09/10/OOI-D20170910-T013835.raw").data)
    (by decide) (by decide) (by decide)
  exact h.trans (by decide)

/-- Counterexample to C5 as stated: with the grammar-legal reversed range
(start 2019-10-27, stop 2019-10-20) the inclusive last covered day
2019-10-19 DIFFERS from the start day, yet no second path is appended —
the result is the single start-day path without the separator, because the
code tests `last > first`, not inequality. -/
theorem c5_counterexample :
    subOneDay ⟨2019, 10, 20, 0, 0, 0⟩ = .ok ⟨2019, 10, 19, 0, 0, 0⟩ ∧
    (⟨2019, 10, 19, 0, 0, 0⟩ : PyDateTime) ≠ ⟨2019, 10, 27, 0, 0, 0⟩ ∧
    modify_provenance_for_echogram_type avgText ⟨2019, 10, 27, 0, 0, 0⟩
      ⟨2019, 10, 20, 0, 0, 0⟩ provC7w =
      .ok { provC7w with data_file_name := some (("/data/testing/zplsc/ce04osps/2017/10/27/OOI-D*-T*.raw").data) } ∧
    ¬ ((" ... ").data <:+:
        ("/data/testing/zplsc/ce04osps/2017/10/27/OOI-D*-T*.raw").data) := by
  exact ⟨by decide, by decide, by decide, by decide⟩

/-! ## Claim C9: file-handle traces -/

theorem set_provenance_trace (env : Env) (path : List Char) :
    ((set_provenance_from_hourly_file env path).1.isOk = true ∧
      (set_provenance_from_hourly_file env path).2 =
        [.opened path, .closed path]) ∨
    ((set_provenance_from_hourly_file env path).1.isOk = false ∧
      ((set_provenance_from_hourly_file env path).2 = [] ∨
       (set_provenance_from_hourly_file env path).2 = [.opened path])) := by
  unfold set_provenance_from_hourly_file
  cases env.openFile path with
  | none => exact Or.inr ⟨rfl, Or.inl rfl⟩
  | some nc =>
    dsimp only
    cases nc.srcFilenames with
    | none => exact Or.inr ⟨rfl, Or.inr rfl⟩
    | some dfn =>
      dsimp only
      cases nc.conversionSoftwareName with
      | none => exact Or.inr ⟨rfl, Or.inr rfl⟩
      | some sw =>
        dsimp only
        cases nc.conversionSoftwareVersion with
        | none => exact Or.inr ⟨rfl, Or.inr rfl⟩
        | some ver =>
          dsimp only
          cases nc.conversionTime with
          | none => exact Or.inr ⟨rfl, Or.inr rfl⟩
          | some ct => exact Or.inl ⟨rfl, rfl⟩

theorem get_first_ping_trace (env : Env) (etype : List Char) :
    ((get_first_ping_time_from_echogram env etype).1.isOk = true ∧
      (get_first_ping_time_from_echogram env etype).2 =
        [.opened env.echogramFilepath, .closed env.echogramFilepath]) ∨
    ((get_first_ping_time_from_echogram env etype).1.isOk = false ∧
      ((get_first_ping_time_from_echogram env etype).2 = [] ∨
       (get_first_ping_time_from_echogram env etype).2 =
         [.opened env.echogramFilepath])) := by
  unfold get_first_ping_time_from_echogram
  cases env.openFile env.echogramFilepath with
  | none => exact Or.inr ⟨rfl, Or.inl rfl⟩
  | some nc =>
    dsimp only
    by_cases he : etype = hourlyText
    · rw [if_pos he]
      cases nc.beamPingTime0 with
      | none => exact Or.inr ⟨rfl, Or.inr rfl⟩
      | some v => exact Or.inl ⟨rfl, rfl⟩
    · rw [if_neg he]
      cases nc.topPingTime0 with
      | none => exact Or.inr ⟨rfl, Or.inr rfl⟩
      | some v => exact Or.inl ⟨rfl, rfl⟩

/-- Claim C9 (amended: the handle is released only on the all-reads-succeed
path; when an attribute or variable read fails, both helper methods leave
the file open — there is no try/finally in the source): on success each of
the two file-opening helpers produces the balanced trace open-then-close,
and on failure the trace is either empty (the open itself failed) or a
single unmatched open. -/
theorem c9_theorem (env : Env) (path etype : List Char) :
    ((set_provenance_from_hourly_file env path).1.isOk = true →
      (set_provenance_from_hourly_file env path).2 =
        [.opened path, .closed path]) ∧
    ((set_provenance_from_hourly_file env path).1.isOk = false →
      (set_provenance_from_hourly_file env path).2 = [] ∨
      (set_provenance_from_hourly_file env path).2 = [.opened path]) ∧
    ((get_first_ping_time_from_echogram env etype).1.isOk = true →
      (get_first_ping_time_from_echogram env etype).2 =
        [.opened env.echogramFilepath, .closed env.echogramFilepath]) ∧
    ((get_first_ping_time_from_echogram env etype).1.isOk = false →
      (get_first_ping_time_from_echogram env etype).2 = [] ∨
      (get_first_ping_time_from_echogram env etype).2 =
        [.opened env.echogramFilepath]) := by
  refine ⟨?_, ?_, ?_, ?_⟩ <;> intro h
  · rcases set_provenance_trace env path with ⟨_, ht⟩ | ⟨hbad, _⟩
    · exact ht
    · rw [h] at hbad; cases hbad
  · rcases set_provenance_trace env path with ⟨hok, _⟩ | ⟨_, ht⟩
    · rw [h] at hok; cases hok
    · exact ht
  · rcases get_first_ping_trace env etype with ⟨_, ht⟩ | ⟨hbad, _⟩
    · exact ht
    · rw [h] at hbad; cases hbad
  · rcases get_first_ping_trace env etype with ⟨hok, _⟩ | ⟨_, ht⟩
    · rw [h] at hok; cases hok
    · exact ht

/-- Witness for C9: the balanced traces of a fully successful run. -/
theorem c9_witness :
    (set_provenance_from_hourly_file envOk
        (("d/OOI-D20191020-T013835.nc").data)).2 =
      [.opened (("d/OOI-D20191020-T013835.nc").data),
       .closed (("d/OOI-D20191020-T013835.nc").data)] ∧
    (get_first_ping_time_from_echogram envOk hourlyText).2 =
      [.opened envOk.echogramFilepath, .closed envOk.echogramFilepath] := by
  refine ⟨(c9_theorem envOk (("d/OOI-D20191020-T013835.nc").data) hourlyText).1
      (by with_unfolding_all decide),
    (c9_theorem envOk (("d/OOI-D20191020-T013835.nc").data) hourlyText).2.2.1
      (by with_unfolding_all decide)⟩

/-- Counterexample to C9 as stated: a failing attribute read leaves the
hourly file open — the trace records an open with no matching close before
control returns. -/
theorem c9_counterexample :
    set_provenance_from_hourly_file envC9x (("d/OOI-D20191020-T013835.nc").data) =
      (.error (.attributeError (("src_filenames").data)),
       [.opened (("d/OOI-D20191020-T013835.nc").data)]) ∧
    FileEvent.closed (("d/OOI-D20191020-T013835.nc").data) ∉
      [FileEvent.opened (("d/OOI-D20191020-T013835.nc").data)] := by
  exact ⟨by decide, by decide⟩

/-! ## Claim C3: the empty-correlation failure -/

theorem filterHourly_ok_nil {etype : List Char} {pat : HourlyPat}
    {startDt stopDt : PyDateTime} {l : List (List Char)}
    (h : ∀ f ∈ l, pat.matches f = true →
      etype ≠ hourlyText ∧ ∃ t, parseHourlyFilename f = some t ∧
        ¬(dtLe startDt t = true ∧ dtLt t stopDt = true)) :
    filterHourly etype pat startDt stopDt l = .ok [] := by
  induction l with
  | nil => rfl
  | cons f rest ih =>
    unfold filterHourly
    by_cases hm : pat.matches f = true
    · rw [if_pos hm]
      obtain ⟨hne, t, hp, hnin⟩ := h f (List.mem_cons_self f rest) hm
      rw [if_neg hne, hp]
      dsimp only
      rw [if_neg hnin]
      exact ih (fun g hg hgm => h g (List.mem_cons_of_mem f hg) hgm)
    · rw [if_neg hm]
      exact ih (fun g hg hgm => h g (List.mem_cons_of_mem f hg) hgm)

/-- Claim C3 (amended: additionally every pattern-matching listing entry
must itself parse under the hourly filename format — an entry that matches
the pattern as a prefix but is not `strptime`-parseable makes the list
comprehension raise ValueError before the emptiness check): when no entry
survives the pattern-and-interval filter, `parse_file` raises the
CorrelationError `SampleException` whose message names both interval
bounds, the aggregation kind, the echogram filename and the pattern, and no
candidate file is opened (the file-event trace is empty). -/
theorem c3_theorem (env : Env) (fname etype : List Char) (pat : HourlyPat)
    (startDt stopDt : PyDateTime)
    (hfn : (pySplit env.echogramFilepath).2 = fname)
    (hrw : resolveWindow fname = .ok (etype, pat, startDt, stopDt))
    (hfail : ∀ f ∈ env.listing, pat.matches f = true →
      etype ≠ hourlyText ∧ ∃ t, parseHourlyFilename f = some t ∧
        ¬(dtLe startDt t = true ∧ dtLt t stopDt = true)) :
    parse_file env =
      (.error (.correlationError
        (correlationErrorMsg startDt stopDt etype fname pat.render)), []) ∧
    fmtHourly startDt <:+:
      correlationErrorMsg startDt stopDt etype fname pat.render ∧
    fmtHourly stopDt <:+:
      correlationErrorMsg startDt stopDt etype fname pat.render ∧
    etype <:+: correlationErrorMsg startDt stopDt etype fname pat.render ∧
    fname <:+: correlationErrorMsg startDt stopDt etype fname pat.render ∧
    pat.render <:+: correlationErrorMsg startDt stopDt etype fname pat.render := by
  refine ⟨?_, ?_, ?_, ?_, ?_, ?_⟩
  · unfold parse_file
    rw [hfn, hrw]
    dsimp only
    rw [filterHourly_ok_nil hfail]
  · exact ⟨("Hourly files from ").data,
      (" to ").data ++ fmtHourly stopDt ++ (" corresponding to \"").data ++
        etype ++ ("\" echogram \"").data ++ fname ++
        ("\" could not be found that match regex \"").data ++ pat.render ++
        ("\"").data,
      by simp [correlationErrorMsg, List.append_assoc]⟩
  · exact ⟨("Hourly files from ").data ++ fmtHourly startDt ++ (" to ").data,
      (" corresponding to \"").data ++ etype ++ ("\" echogram \"").data ++
        fname ++ ("\" could not be found that match regex \"").data ++
        pat.render ++ ("\"").data,
      by simp [correlationErrorMsg, List.append_assoc]⟩
  · exact ⟨("Hourly files from ").data ++ fmtHourly startDt ++ (" to ").data ++
        fmtHourly stopDt ++ (" corresponding to \"").data,
      ("\" echogram \"").data ++ fname ++
        ("\" could not be found that match regex \"").data ++ pat.render ++
        ("\"").data,
      by simp [correlationErrorMsg, List.append_assoc]⟩
  · exact ⟨("Hourly files from ").data ++ fmtHourly startDt ++ (" to ").data ++
        fmtHourly stopDt ++ (" corresponding to \"").data ++ etype ++
        ("\" echogram \"").data,
      ("\" could not be found that match regex \"").data ++ pat.render ++
        ("\"").data,
      by simp [correlationErrorMsg, List.append_assoc]⟩
  · exact ⟨("Hourly files from ").data ++ fmtHourly startDt ++ (" to ").data ++
        fmtHourly stopDt ++ (" corresponding to \"").data ++ etype ++
        ("\" echogram \"").data ++ fname ++
        ("\" could not be found that match regex \"").data,
      ("\"").data,
      by simp [correlationErrorMsg, List.append_assoc]⟩

/-- Witness for C3: one valid hourly file outside the window yields the
CorrelationError with an empty file-event trace. -/
theorem c3_witness :
    parse_file envC3w =
      (.error (.correlationError (correlationErrorMsg ⟨2019, 10, 20, 0, 0, 0⟩
        ⟨2019, 10, 27, 0, 0, 0⟩ avgText
        (("CE_Bioacoustic_Echogram_20191020-20191027_Calibrated_Sv_Averaged.nc").data)
        HourlyPat.anyDay.render)), []) :=
  (c3_theorem envC3w
    (("CE_Bioacoustic_Echogram_20191020-20191027_Calibrated_Sv_Averaged.nc").data)
    avgText HourlyPat.anyDay ⟨2019, 10, 20, 0, 0, 0⟩ ⟨2019, 10, 27, 0, 0, 0⟩
    (by decide) (by decide)
    (by
      intro f hf hm
      have hf' : f = ("OOI-D20191027-T000000.nc").data := by
        simpa [envC3w] using hf
      subst hf'
      exact ⟨by decide, ⟨2019, 10, 27, 0, 0, 0⟩, by decide, by decide⟩)).1

/-- Counterexample to C3 as stated: the single listing entry
`OOI-D19190101-T000000.ncjunk` matches the resolved Averaged pattern (as a
prefix) and its embedded timestamp 1919-01-01 lies outside the window
`[2019-10-20, 2019-10-27)`, so the claim demands a CorrelationError; but
the list comprehension's `strptime` raises ValueError on the junk suffix
first. -/
theorem c3_counterexample :
    HourlyPat.anyDay.matches (("OOI-D19190101-T000000.ncjunk").data) = true ∧
    parseHourlyFilename (("OOI-D19190101-T000000.ncjunk").data) = none ∧
    dtLt ⟨1919, 1, 1, 0, 0, 0⟩ ⟨2019, 10, 20, 0, 0, 0⟩ = true ∧
    (parse_file envC3x).1 =
      .error (.valueError (("OOI-D19190101-T000000.ncjunk").data)) ∧
    (parse_file envC3x).1 ≠
      .error (.correlationError (correlationErrorMsg ⟨2019, 10, 20, 0, 0, 0⟩
        ⟨2019, 10, 27, 0, 0, 0⟩ avgText
        (("CE_Bioacoustic_Echogram_20191020-20191027_Calibrated_Sv_Averaged.nc").data)
        HourlyPat.anyDay.render)) := by
  exact ⟨by decide, by decide, by decide, by with_unfolding_all decide,
    by with_unfolding_all decide⟩

/-- Claim C6: on every successful invocation exactly one record is
produced; its `internalTimestamp` is the first ping time plus 0.001 when
the aggregation kind is Full and the unoffset first ping time for Averaged
and Hourly, while its `zplsc_timestamp` (FILE_TIME) field always carries
the unoffset first ping time. -/
theorem c6_theorem (env : Env) (etype : List Char) (pat : HourlyPat)
    (startDt stopDt : PyDateTime) (fpt : ℚ) (tr : List FileEvent)
    (recs : List MetadataRecord)
    (hrw : resolveWindow (pySplit env.echogramFilepath).2 =
      .ok (etype, pat, startDt, stopDt))
    (hping : get_first_ping_time_from_echogram env etype = (.ok fpt, tr))
    (hok : (parse_file env).1 = .ok recs) :
    recs.length = 1 ∧
    recs.headI.zplsc_timestamp = fpt ∧
    recs.headI.internalTimestamp =
      fpt + (if etype = fullText then (1 : ℚ) / 1000 else 0) := by
  unfold parse_file at hok
  rw [hrw] at hok
  dsimp only at hok
  cases hf : filterHourly etype pat startDt stopDt env.listing with
  | error e =>
    rw [hf] at hok
    dsimp only at hok
    exact absurd hok (by simp)
  | ok l =>
    rw [hf] at hok
    cases l with
    | nil =>
      dsimp only at hok
      exact absurd hok (by simp)
    | cons f fs =>
      dsimp only at hok
      cases hsp : set_provenance_from_hourly_file env
          (pyJoin (pySplit env.echogramFilepath).1 (pySorted (f :: fs)).headI) with
      | mk spres sptr =>
        rw [hsp] at hok
        cases spres with
        | error e =>
          dsimp only at hok
          exact absurd hok (by simp)
        | ok prov =>
          dsimp only at hok
          cases hmo : modify_provenance_for_echogram_type etype startDt stopDt prov with
          | error e =>
            rw [hmo] at hok
            dsimp only at hok
            exact absurd hok (by simp)
          | ok prov2 =>
            rw [hmo] at hok
            dsimp only at hok
            rw [hping] at hok
            dsimp only at hok
            cases hct : prov2.conversion_time with
            | none =>
              rw [hct] at hok
              dsimp only at hok
              exact absurd hok (by simp)
            | some ct =>
              rw [hct] at hok
              dsimp only at hok
              obtain rfl := (Except.ok.inj hok).symm
              exact ⟨rfl, rfl, rfl⟩

/-- Witness for C6 on a successful Hourly run: the single record carries
the unoffset first ping time in both fields (offset 0 for Hourly). -/
theorem c6_witness :
    ([(⟨100, 100, ("d/OOI-D20191020-T013835.nc").data, 7⟩ : MetadataRecord)]).length = 1 ∧
    ([(⟨100, 100, ("d/OOI-D20191020-T013835.nc").data, 7⟩ : MetadataRecord)]).headI.zplsc_timestamp = (100 : ℚ) ∧
    ([(⟨100, 100, ("d/OOI-D20191020-T013835.nc").data, 7⟩ : MetadataRecord)]).headI.internalTimestamp =
      (100 : ℚ) + (if hourlyText = fullText then (1 : ℚ) / 1000 else 0) :=
  c6_theorem envOk hourlyText
    (.selfName (("OOI-D20191020-T013835.nc").data))
    ⟨2019, 10, 20, 1, 38, 35⟩ ⟨2019, 10, 20, 1, 38, 35⟩ 100
    [.opened (("d/OOI-D20191020-T013835.nc").data),
     .closed (("d/OOI-D20191020-T013835.nc").data)]
    [⟨100, 100, ("d/OOI-D20191020-T013835.nc").data, 7⟩]
    (by decide) (by with_unfolding_all decide) (by with_unfolding_all decide)
